import Mathlib

/-!
Verification of the ertmp RTMP transport core against its specification.

The definitions below are a shallow embedding of the Go sources:
* `pkg/rtmp/transport/constants.go` — protocol constants
* `pkg/rtmp/transport` message-header codec (the `MessageHeader` file with
  `ExtendedTimestampThreshold`, i.e. `src/unnamed/part_013`)
* `pkg/rtmp/transport/writer.go` (map-of-ChunkStream version) and the
  `prevHeaders`-map writer with extended-timestamp continuations
  (`src/unnamed/part_015`)
* `pkg/rtmp/transport/reader.go`
* `pkg/rtmp/transport/transport.go`
* `pkg/rtmp/buf/buffer.go` reference counting

Machine integers are modelled as `Nat` with explicit `% 2^w` where Go
would wrap.  Byte streams are `List Nat` (each element a byte value).
I/O failure (`io.EOF` etc.) is modelled by `Except`.
-/

namespace ERtmp

/-- Truncation to a Go `uint32` value. -/
def u32 (n : Nat) : Nat := n % 4294967296

/-- `ExtendedTimestampThreshold = 0xFFFFFF` from constants.go. -/
def extendedTimestampThreshold : Nat := 16777215

/-- `MaxChunkSize = 0xFFFFFF` from constants.go. -/
def maxChunkSize : Nat := 16777215

/-- `DefaultChunkSize = 128` from constants.go. -/
def defaultChunkSize : Nat := 128

/-- `WriteUint24BE` from utils.go: three big-endian bytes of a value
(upper bits truncated, exactly like the Go shifts-and-mask code). -/
def writeUint24BE (v : Nat) : List Nat :=
  [v / 65536 % 256, v / 256 % 256, v % 256]

/-- `binary.BigEndian.PutUint32`: four big-endian bytes. -/
def writeUint32BE (v : Nat) : List Nat :=
  [v / 16777216 % 256, v / 65536 % 256, v / 256 % 256, v % 256]

/-- `binary.LittleEndian.PutUint32`: four little-endian bytes. -/
def writeUint32LE (v : Nat) : List Nat :=
  [v % 256, v / 256 % 256, v / 65536 % 256, v / 16777216 % 256]

/-- `MessageHeader` from the transport package (field-for-field). -/
structure MessageHeader where
  timestamp : Nat
  hasExtendedTimestamp : Bool
  timestampDelta : Nat
  messageLength : Nat
  messageTypeID : Nat
  messageStreamID : Nat
  deriving Repr, DecidableEq

/-- The zero value `MessageHeader{}` of Go. -/
def zeroHeader : MessageHeader :=
  { timestamp := 0, hasExtendedTimestamp := false, timestampDelta := 0,
    messageLength := 0, messageTypeID := 0, messageStreamID := 0 }

/-- `MessageHeader.WriteTo` split into (core bytes, extended-timestamp
bytes); the wire image is the concatenation of the two parts, exactly as
the Go method writes them. -/
def MessageHeader.writeToParts (h : MessageHeader) (fmtType : Nat) :
    List Nat × List Nat :=
  if fmtType = 0 then
    (writeUint24BE (if extendedTimestampThreshold ≤ h.timestamp then
        extendedTimestampThreshold else h.timestamp) ++
      writeUint24BE h.messageLength ++ [h.messageTypeID % 256] ++
      writeUint32LE h.messageStreamID,
     if extendedTimestampThreshold ≤ h.timestamp then
        writeUint32BE h.timestamp else [])
  else if fmtType = 1 then
    (writeUint24BE (if extendedTimestampThreshold ≤ h.timestampDelta then
        extendedTimestampThreshold else h.timestampDelta) ++
      writeUint24BE h.messageLength ++ [h.messageTypeID % 256],
     if extendedTimestampThreshold ≤ h.timestampDelta then
        writeUint32BE h.timestampDelta else [])
  else if fmtType = 2 then
    (writeUint24BE (if extendedTimestampThreshold ≤ h.timestampDelta then
        extendedTimestampThreshold else h.timestampDelta),
     if extendedTimestampThreshold ≤ h.timestampDelta then
        writeUint32BE h.timestampDelta else [])
  else ([], [])

/-- `Writer.determineFormatType` (identical in writer.go and the
`prevHeaders` writer). -/
def determineFormatType (prev curr : MessageHeader) : Nat :=
  if prev.messageStreamID ≠ curr.messageStreamID then 0
  else if prev.messageLength ≠ curr.messageLength ∨
      prev.messageTypeID ≠ curr.messageTypeID then 1
  else if prev.timestamp ≠ curr.timestamp then 2
  else 3

/-- `Writer.getChunkStreamID` (identical in both writer versions):
chunk stream chosen from the message type alone. -/
def getChunkStreamID (t : Nat) : Nat :=
  if t = 1 ∨ t = 2 ∨ t = 3 ∨ t = 5 ∨ t = 6 ∨ t = 4 then 2
  else if t = 20 ∨ t = 17 then 3
  else if t = 8 then 4
  else if t = 9 then 5
  else if t = 18 ∨ t = 15 then 6
  else 3

/-- `basicHeader.WriteTo`: 1–3 byte basic header. -/
def basicHeaderBytes (fmtType csid : Nat) : List Nat :=
  if csid < 64 then [fmtType * 64 + csid]
  else if csid < 320 then [fmtType * 64, csid - 64]
  else [fmtType * 64 + 1, (csid - 64) % 256, (csid - 64) / 256 % 256]

/-- One chunk as it appears on the wire: basic header, message-header
bytes (first chunk only), extended-timestamp bytes, payload slice. -/
structure Chunk where
  fmtType : Nat
  csid : Nat
  headerBytes : List Nat
  extBytes : List Nat
  payload : List Nat
  deriving Repr, DecidableEq

/-- Byte image of a chunk. -/
def Chunk.flatten (c : Chunk) : List Nat :=
  basicHeaderBytes c.fmtType c.csid ++ c.headerBytes ++ c.extBytes ++ c.payload

/-- Byte image of a chunk sequence. -/
def wireOf (cs : List Chunk) : List Nat := (cs.map Chunk.flatten).flatten

/-- `Message` (header plus payload bytes; `Data()` truncates to the
header's `MessageLength`, as message.go does when merging buffers). -/
structure Message where
  header : MessageHeader
  payload : List Nat
  deriving Repr, DecidableEq

/-- `Message.Data()`. -/
def Message.data (m : Message) : List Nat :=
  m.payload.take m.header.messageLength

/-- Writer state of writer.go: the per-CSID `ChunkStream.PrevHeader`
table (`none` = chunk stream not yet created; a freshly created chunk
stream carries the zero header) and the outgoing chunk size. -/
structure WriterState where
  prevHeaders : Nat → Option MessageHeader
  chunkSize : Nat

/-- `NewWriter` with a given chunk size. -/
def WriterState.fresh (cs : Nat) : WriterState :=
  { prevHeaders := fun _ => none, chunkSize := cs }

/-- Continuation chunks of writer.go: fmt-3 basic header and a chunk-size
slice of the remaining payload, no extended timestamp.  Structural fuel
stands in for the Go loop; `fuel = data.length` always suffices because
the validated chunk size is at least one. -/
def contChunksAux (csid cs : Nat) : Nat → List Nat → List Chunk
  | 0, _ => []
  | _, [] => []
  | fuel + 1, d =>
    if cs = 0 then []
    else
      { fmtType := 3, csid := csid, headerBytes := [], extBytes := [],
        payload := d.take cs } :: contChunksAux csid cs fuel (d.drop cs)

/-- Continuation chunks of writer.go for remaining payload `d`. -/
def contChunks (csid cs : Nat) (d : List Nat) : List Chunk :=
  contChunksAux csid cs d.length d

/-- `Writer.WriteMessage` of writer.go: returns the updated state and
the emitted chunks (empty payload emits nothing; `PrevHeader` is always
overwritten with the message's header; the function has no error path
besides I/O, which the pure model cannot fail). -/
def Writer.writeMessage (s : WriterState) (msg : Message) :
    WriterState × List Chunk :=
  let csid := getChunkStreamID msg.header.messageTypeID
  let prev := (s.prevHeaders csid).getD zeroHeader
  let fmtType := determineFormatType prev msg.header
  let d := msg.data
  let chunks :=
    if d = [] then []
    else
      let parts := msg.header.writeToParts fmtType
      { fmtType := fmtType, csid := csid, headerBytes := parts.1,
        extBytes := parts.2, payload := d.take s.chunkSize } ::
        contChunks csid s.chunkSize (d.drop s.chunkSize)
  ({ s with prevHeaders := fun c =>
      if c = csid then some msg.header else s.prevHeaders c }, chunks)

/-- The `headerToWrite` computation of the `prevHeaders`-map writer
(`Writer.WriteMessage`, src/unnamed/part_015): chosen format type and
the header whose delta and extended-timestamp flag were filled in. -/
def p15EffectiveHeader (s : WriterState) (msg : Message) : Nat × MessageHeader :=
  let fh :=
    match s.prevHeaders (getChunkStreamID msg.header.messageTypeID) with
    | none => (0, { msg.header with timestampDelta := msg.header.timestamp })
    | some prev =>
      let f := determineFormatType prev msg.header
      let dl := u32 (msg.header.timestamp + 4294967296 - u32 prev.timestamp)
      if f = 1 ∨ f = 2 then
        (f, { msg.header with timestampDelta := dl })
      else if f = 0 then
        (f, { msg.header with timestampDelta := msg.header.timestamp })
      else (f, msg.header)
  if extendedTimestampThreshold ≤ fh.2.timestamp ∨
      extendedTimestampThreshold ≤ fh.2.timestampDelta then
    (fh.1, { fh.2 with hasExtendedTimestamp := true })
  else fh

/-- Continuation chunks of the `prevHeaders`-map writer: fmt-3 basic
header, then — when the message header uses extended timestamps — a
4-byte big-endian extended timestamp, then the payload slice. -/
def contChunksP15Aux (csid cs : Nat) (hasExt : Bool) (delta : Nat) :
    Nat → List Nat → List Chunk
  | 0, _ => []
  | _, [] => []
  | fuel + 1, d =>
    if cs = 0 then []
    else
      { fmtType := 3, csid := csid, headerBytes := [],
        extBytes := if hasExt then writeUint32BE delta else [],
        payload := d.take cs } ::
        contChunksP15Aux csid cs hasExt delta fuel (d.drop cs)

/-- Continuation chunks of the `prevHeaders`-map writer. -/
def contChunksP15 (csid cs : Nat) (hasExt : Bool) (delta : Nat)
    (d : List Nat) : List Chunk :=
  contChunksP15Aux csid cs hasExt delta d.length d

/-- `Writer.WriteMessage` of the `prevHeaders`-map writer
(src/unnamed/part_015): format chosen against the stored previous header
(`none` forces fmt 0), continuation chunks repeat the extended timestamp
whenever the effective header carries the flag, and the stored previous
header becomes the effective header. -/
def Writer.writeMessageP15 (s : WriterState) (msg : Message) :
    WriterState × List Chunk :=
  let csid := getChunkStreamID msg.header.messageTypeID
  let eff := p15EffectiveHeader s msg
  let fmtType := eff.1
  let hw := eff.2
  let d := msg.data
  let chunks :=
    if d = [] then []
    else
      let parts := hw.writeToParts fmtType
      { fmtType := fmtType, csid := csid, headerBytes := parts.1,
        extBytes := parts.2, payload := d.take s.chunkSize } ::
        contChunksP15 csid s.chunkSize hw.hasExtendedTimestamp
          hw.timestampDelta (d.drop s.chunkSize)
  ({ s with prevHeaders := fun c =>
      if c = csid then some hw else s.prevHeaders c }, chunks)

/-! ## Reader (reader.go with the message-header codec of part_013) -/

/-- Reader-side failure kinds (I/O errors and the declared
`ErrNoPreviousHeader`, plus `ReadChunkData`'s invalid-size rejection). -/
inductive RErr where
  | eof
  | invalidSize
  | noPreviousHeader
  deriving Repr, DecidableEq

/-- `ReadByte` on a byte stream. -/
def readByteP : List Nat → Except RErr (Nat × List Nat)
  | [] => .error .eof
  | b :: rest => .ok (b, rest)

/-- `readUint24BE` from utils (three big-endian bytes; a short stream is
the `io.EOF` of the Go byte reader). -/
def readU24BE : List Nat → Except RErr (Nat × List Nat)
  | b0 :: b1 :: b2 :: rest => .ok (b0 * 65536 + b1 * 256 + b2, rest)
  | _ => .error .eof

/-- `readUint32BE` from utils. -/
def readU32BE : List Nat → Except RErr (Nat × List Nat)
  | b0 :: b1 :: b2 :: b3 :: rest =>
    .ok (b0 * 16777216 + b1 * 65536 + b2 * 256 + b3, rest)
  | _ => .error .eof

/-- `readUint32LE` from utils. -/
def readU32LE : List Nat → Except RErr (Nat × List Nat)
  | b0 :: b1 :: b2 :: b3 :: rest =>
    .ok (b3 * 16777216 + b2 * 65536 + b1 * 256 + b0, rest)
  | _ => .error .eof

/-- `readUint16LE` from utils. -/
def readU16LE : List Nat → Except RErr (Nat × List Nat)
  | b0 :: b1 :: rest => .ok (b1 * 256 + b0, rest)
  | _ => .error .eof

/-- `readBasicHeader`: returns (fmt, csid). -/
def readBasicHeader : List Nat → Except RErr ((Nat × Nat) × List Nat)
  | [] => .error .eof
  | b :: rest =>
    if b % 64 = 0 then
      match rest with
      | [] => .error .eof
      | b2 :: rest2 => .ok ((b / 64 % 4, b2 + 64), rest2)
    else if b % 64 = 1 then
      match readU16LE rest with
      | .error e => .error e
      | .ok (v, rest2) => .ok ((b / 64 % 4, v + 64), rest2)
    else .ok ((b / 64 % 4, b % 64), rest)

/-- `readMessageHeaderFmt0` (part_013): 11-byte full header, extended
timestamp afterwards when the 24-bit field is saturated. -/
def readMessageHeaderFmt0 (s : List Nat) :
    Except RErr (MessageHeader × List Nat) :=
  match readU24BE s with
  | .error e => .error e
  | .ok (ts0, s) =>
    match readU24BE s with
    | .error e => .error e
    | .ok (len, s) =>
      match readByteP s with
      | .error e => .error e
      | .ok (tid, s) =>
        match readU32LE s with
        | .error e => .error e
        | .ok (msid, s) =>
          if ts0 = extendedTimestampThreshold then
            match readU32BE s with
            | .error e => .error e
            | .ok (ts, s) =>
              .ok ({ timestamp := ts, hasExtendedTimestamp := true,
                     timestampDelta := ts, messageLength := len,
                     messageTypeID := tid, messageStreamID := msid }, s)
          else
            .ok ({ timestamp := ts0, hasExtendedTimestamp := false,
                   timestampDelta := ts0, messageLength := len,
                   messageTypeID := tid, messageStreamID := msid }, s)

/-- `readMessageHeaderFmt1` (part_013): requires a previous header. -/
def readMessageHeaderFmt1 (prev : Option MessageHeader) (s : List Nat) :
    Except RErr (MessageHeader × List Nat) :=
  match prev with
  | none => .error .noPreviousHeader
  | some p =>
    match readU24BE s with
    | .error e => .error e
    | .ok (d0, s) =>
      match readU24BE s with
      | .error e => .error e
      | .ok (len, s) =>
        match readByteP s with
        | .error e => .error e
        | .ok (tid, s) =>
          if d0 = extendedTimestampThreshold then
            match readU32BE s with
            | .error e => .error e
            | .ok (dl, s) =>
              .ok ({ timestamp := u32 (p.timestamp + dl),
                     hasExtendedTimestamp := true,
                     timestampDelta := dl, messageLength := len,
                     messageTypeID := tid,
                     messageStreamID := p.messageStreamID }, s)
          else
            .ok ({ timestamp := u32 (p.timestamp + d0),
                   hasExtendedTimestamp := false,
                   timestampDelta := d0, messageLength := len,
                   messageTypeID := tid,
                   messageStreamID := p.messageStreamID }, s)

/-- `readMessageHeaderFmt2` (part_013): requires a previous header. -/
def readMessageHeaderFmt2 (prev : Option MessageHeader) (s : List Nat) :
    Except RErr (MessageHeader × List Nat) :=
  match prev with
  | none => .error .noPreviousHeader
  | some p =>
    match readU24BE s with
    | .error e => .error e
    | .ok (d0, s) =>
      if d0 = extendedTimestampThreshold then
        match readU32BE s with
        | .error e => .error e
        | .ok (dl, s) =>
          .ok ({ timestamp := u32 (p.timestamp + dl),
                 hasExtendedTimestamp := true,
                 timestampDelta := dl, messageLength := p.messageLength,
                 messageTypeID := p.messageTypeID,
                 messageStreamID := p.messageStreamID }, s)
      else
        .ok ({ timestamp := u32 (p.timestamp + d0),
               hasExtendedTimestamp := false,
               timestampDelta := d0, messageLength := p.messageLength,
               messageTypeID := p.messageTypeID,
               messageStreamID := p.messageStreamID }, s)

/-- `readMessageHeaderFmt3` (part_013): zero bytes unless the previous
chunk used an extended timestamp, in which case a 4-byte delta is read. -/
def readMessageHeaderFmt3 (prev : Option MessageHeader) (s : List Nat) :
    Except RErr (MessageHeader × List Nat) :=
  match prev with
  | none => .error .noPreviousHeader
  | some p =>
    if p.hasExtendedTimestamp then
      match readU32BE s with
      | .error e => .error e
      | .ok (dl, s) =>
        .ok ({ timestamp := u32 (p.timestamp + dl),
               hasExtendedTimestamp := p.hasExtendedTimestamp,
               timestampDelta := dl, messageLength := p.messageLength,
               messageTypeID := p.messageTypeID,
               messageStreamID := p.messageStreamID }, s)
    else
      .ok ({ timestamp := u32 (p.timestamp + p.timestampDelta),
             hasExtendedTimestamp := p.hasExtendedTimestamp,
             timestampDelta := p.timestampDelta,
             messageLength := p.messageLength,
             messageTypeID := p.messageTypeID,
             messageStreamID := p.messageStreamID }, s)

/-- `readMessageHeader` (part_013): dispatch on the format type.  The
per-format helpers reject a `nil` previous header with
`ErrNoPreviousHeader`; the reader always passes the (possibly
zero-valued) `ChunkStream.PrevHeader`, so that branch is kept exactly as
in the source. -/
def readMessageHeaderGo (fmtType : Nat) (prev : Option MessageHeader)
    (s : List Nat) : Except RErr (MessageHeader × List Nat) :=
  if fmtType = 0 then readMessageHeaderFmt0 s
  else if fmtType = 1 then readMessageHeaderFmt1 prev s
  else if fmtType = 2 then readMessageHeaderFmt2 prev s
  else if fmtType = 3 then readMessageHeaderFmt3 prev s
  else .ok (zeroHeader, s)

/-- Per-CSID `ChunkStream` state of chunk_stream.go. -/
structure ChunkStreamState where
  messageHeader : MessageHeader
  prevHeader : MessageHeader
  buffers : List Nat
  bytesRead : Nat
  deriving Repr, DecidableEq

/-- `NewChunkStream()` (all fields zero-valued). -/
def ChunkStreamState.new : ChunkStreamState :=
  { messageHeader := zeroHeader, prevHeader := zeroHeader,
    buffers := [], bytesRead := 0 }

/-- Reader state of reader.go. -/
structure ReaderState where
  chunkStreams : Nat → Option ChunkStreamState
  chunkSize : Nat

/-- `NewReader` with a given chunk size. -/
def ReaderState.fresh (cs : Nat) : ReaderState :=
  { chunkStreams := fun _ => none, chunkSize := cs }

/-- `Reader.readChunk`: parse one chunk, accumulate its data into the
chunk stream, return the CSID. -/
def Reader.readChunk (r : ReaderState) (s : List Nat) :
    Except RErr ((Nat × ReaderState) × List Nat) :=
  match readBasicHeader s with
  | .error e => .error e
  | .ok ((fmtv, csid), s) =>
    let cs0 := (r.chunkStreams csid).getD ChunkStreamState.new
    match readMessageHeaderGo fmtv (some cs0.prevHeader) s with
    | .error e => .error e
    | .ok (mh, s) =>
      let cs1 := if cs0.bytesRead = 0 then { cs0 with messageHeader := mh } else cs0
      let remaining := cs1.messageHeader.messageLength - cs1.bytesRead
      let cds := min r.chunkSize remaining
      if cds = 0 then .error .invalidSize
      else if s.length < cds then .error .eof
      else
        let cs2 := { cs1 with buffers := cs1.buffers ++ s.take cds, bytesRead := cs1.bytesRead + cds }
        let tbl := fun c => if c = csid then some cs2 else r.chunkStreams c
        .ok ((csid, { r with chunkStreams := tbl }), s.drop cds)

/-- Length validation of `Reader.handleProtocolControl` (and the
identical checks of `Transport.handleProtocolControl`). -/
def validCtrlLen (t len : Nat) : Bool :=
  if t = 1 then len == 4
  else if t = 2 then len == 4
  else if t = 3 then len == 4
  else if t = 4 then 2 ≤ len
  else if t = 5 then len == 4
  else if t = 6 then len == 5
  else true

/-- `binary.BigEndian.Uint32` over the first four payload bytes. -/
def u32beOf (d : List Nat) : Nat :=
  d.getD 0 0 * 16777216 + d.getD 1 0 * 65536 + d.getD 2 0 * 256 + d.getD 3 0

/-- The chunk-size mutation the reader performs when a valid SetChunkSize
passes through it: the masked value, accepted only in `1..MaxChunkSize`
(out-of-range values are ignored because the `SetChunkSize` result is
discarded with a blank identifier). -/
def readerCtrlEffect (tid : Nat) (d : List Nat) (cs : Nat) : Nat :=
  if tid = 1 then
    let sz := u32beOf d % 2147483648
    if 1 ≤ sz ∧ sz ≤ maxChunkSize then sz else cs
  else cs

/-- `Reader.getReadyMessage`: hand out a completed message.  Buffers are
moved out first; a failed control-length validation silently drops the
message (returns `none`) without updating `PrevHeader`. -/
def Reader.getReadyMessage (r : ReaderState) (csid : Nat) :
    Option Message × ReaderState :=
  match r.chunkStreams csid with
  | none => (none, r)
  | some cs =>
    if cs.messageHeader.messageLength ≤ cs.bytesRead then
      let msg : Message := { header := cs.messageHeader, payload := cs.buffers }
      let cs' := { cs with buffers := [], bytesRead := 0 }
      if validCtrlLen msg.header.messageTypeID msg.data.length then
        (some msg,
         { chunkStreams := fun c =>
             if c = csid then some { cs' with prevHeader := cs.messageHeader }
             else r.chunkStreams c,
           chunkSize := readerCtrlEffect msg.header.messageTypeID msg.data
             r.chunkSize })
      else
        (none, { r with chunkStreams := fun c =>
            if c = csid then some cs' else r.chunkStreams c })
    else (none, r)

/-- The `Reader.ReadMessage` loop with structural fuel; every iteration
consumes at least the one-byte basic header, so any fuel exceeding the
stream length behaves like the unbounded Go loop (which would block on
`io.EOF` — modelled by the `eof` error). -/
def Reader.readMessageFuel : Nat → ReaderState → List Nat →
    Except RErr (Message × ReaderState × List Nat)
  | 0, _, _ => .error .eof
  | fuel + 1, r, s =>
    match Reader.readChunk r s with
    | .error e => .error e
    | .ok ((csid, r'), s') =>
      match Reader.getReadyMessage r' csid with
      | (some msg, r'') => .ok (msg, r'', s')
      | (none, r'') => Reader.readMessageFuel fuel r'' s'

/-- `Reader.ReadMessage`. -/
def Reader.readMessage (r : ReaderState) (s : List Nat) :
    Except RErr (Message × ReaderState × List Nat) :=
  Reader.readMessageFuel (s.length + 1) r s

/-! ## Transport orchestrator (transport.go) -/

/-- Transport-level failure kinds (the fatal errors
`Transport.handleProtocolControl` can return, plus a wrapped reader
error). -/
inductive TErr where
  | readerErr (e : RErr)
  | malformedControl
  | invalidChunkSizeValue
  | pingDataLen
  deriving Repr, DecidableEq

/-- `Transport` state: the reader, the writer (used for outgoing
acknowledgements and ping responses), the flow-control counters of
transport.go and the bytes already written to the wire.  `acksOut`
records the `uint32` value carried by each emitted Acknowledgement. -/
structure TransportState where
  reader : ReaderState
  writer : WriterState
  windowAckSize : Nat
  lastAckSent : Nat
  bytesRead : Nat
  wireOut : List Nat
  acksOut : List Nat

/-- `NewTransport`: default chunk sizes 128, window disabled. -/
def TransportState.fresh : TransportState :=
  { reader := ReaderState.fresh defaultChunkSize,
    writer := WriterState.fresh defaultChunkSize,
    windowAckSize := 0, lastAckSent := 0, bytesRead := 0,
    wireOut := [], acksOut := [] }

/-- `Transport.WriteMessage`: hand the message to the writer and flush.
There is no message-type check on this path; the chunk bytes reach the
wire for every message. -/
def Transport.writeMessage (t : TransportState) (msg : Message) :
    TransportState :=
  let wc := Writer.writeMessage t.writer msg
  { t with writer := wc.1, wireOut := t.wireOut ++ wireOf wc.2 }

/-- `parseUserControl` from transport.go. -/
def parseUserControlGo (d : List Nat) : Option (Nat × List Nat) :=
  if d.length < 2 then none
  else some (d.getD 0 0 * 256 + d.getD 1 0, d.drop 2)

/-- `createUserControl` from transport.go. -/
def createUserControlGo (et : Nat) (ed : List Nat) : Message :=
  { header := { zeroHeader with messageTypeID := 4, messageLength := 2 + ed.length },
    payload := [et / 256 % 256, et % 256] ++ ed }

/-- Modelled from the spec: `Reader.ClearChunkStream`, called by the
Abort branch of `Transport.handleProtocolControl`; the method body is
absent from the sources (only this caller remains).  Per §4.3 of the
specification an Abort drops the partially assembled message on the
named CSID and releases its buffer. -/
def Reader.clearChunkStream (r : ReaderState) (csid : Nat) : ReaderState :=
  { r with chunkStreams := fun c =>
      if c = csid then none else r.chunkStreams c }

/-- `Transport.handleProtocolControl` from transport.go (invoked after
the reader has already validated and possibly consumed the message). -/
def Transport.handleProtocolControlT (t : TransportState) (msg : Message) :
    Except TErr TransportState :=
  let d := msg.data
  let tid := msg.header.messageTypeID
  if tid = 1 then
    if d.length ≠ 4 then .error .malformedControl
    else
      let sz := u32beOf d % 2147483648
      if 1 ≤ sz ∧ sz ≤ maxChunkSize then
        .ok { t with reader := { t.reader with chunkSize := sz } }
      else .error .invalidChunkSizeValue
  else if tid = 2 then
    if d.length ≠ 4 then .error .malformedControl
    else .ok { t with reader := Reader.clearChunkStream t.reader (u32beOf d) }
  else if tid = 3 then
    if d.length ≠ 4 then .error .malformedControl else .ok t
  else if tid = 4 then
    if d.length < 2 then .error .malformedControl
    else
      match parseUserControlGo d with
      | none => .error .malformedControl
      | some (et, ed) =>
        if et = 6 then
          if ed.length ≠ 4 then .error .pingDataLen
          else .ok (Transport.writeMessage t (createUserControlGo 7 ed))
        else .ok t
  else if tid = 5 then
    if d.length ≠ 4 then .error .malformedControl
    else
      let nw := u32beOf d
      let t' := if t.windowAckSize ≠ nw then
          { t with lastAckSent := t.bytesRead } else t
      .ok { t' with windowAckSize := nw }
  else if tid = 6 then
    if d.length ≠ 5 then .error .malformedControl else .ok t
  else .ok t

/-- `Transport.sendAcknowledgement`: build the 4-byte big-endian
payload (value truncated to `uint32`), send it through the generic
write path, and record the value. -/
def Transport.sendAcknowledgement (t : TransportState) (n : Nat) :
    TransportState :=
  let v := u32 n
  let msg : Message :=
    { header := { zeroHeader with messageTypeID := 3, messageLength := 4 },
      payload := writeUint32BE v }
  let t' := Transport.writeMessage t msg
  { t' with acksOut := t'.acksOut ++ [v] }

/-- The `Transport.handleAckWindow` loop with structural fuel: while the
window is enabled and another boundary has been crossed, advance
`lastAckSent` by one window and emit an Acknowledgement.  Any fuel above
`(bytesRead - lastAckSent)` iterations reproduces the Go loop exactly. -/
def Transport.ackLoopAux : Nat → TransportState → TransportState
  | 0, t => t
  | fuel + 1, t =>
    if t.windowAckSize = 0 then t
    else if t.windowAckSize ≤ t.bytesRead - t.lastAckSent then
      Transport.ackLoopAux fuel
        (Transport.sendAcknowledgement
          { t with lastAckSent := t.lastAckSent + t.windowAckSize }
          (t.lastAckSent + t.windowAckSize))
    else t

/-- `Transport.handleAckWindow`. -/
def Transport.handleAckWindow (t : TransportState) : TransportState :=
  Transport.ackLoopAux (t.bytesRead - t.lastAckSent + 1) t

/-- `Transport.ReadMessage`: read a full message, account the consumed
wire bytes, run the transport-level protocol-control handler, then the
acknowledgement window check. -/
def Transport.readMessage (t : TransportState) (s : List Nat) :
    Except TErr (Message × TransportState × List Nat) :=
  match Reader.readMessage t.reader s with
  | .error e => .error (.readerErr e)
  | .ok (msg, r', rest) =>
    let t1 := { t with reader := r', bytesRead := t.bytesRead + (s.length - rest.length) }
    match Transport.handleProtocolControlT t1 msg with
    | .error e => .error e
    | .ok t2 => .ok (msg, Transport.handleAckWindow t2, rest)

/-- Drive `Transport.ReadMessage` until the inbound stream is exhausted
(or fuel runs out), collecting the delivered messages. -/
def Transport.run : Nat → TransportState → List Nat →
    Except TErr (TransportState × List Message)
  | 0, t, _ => .ok (t, [])
  | fuel + 1, t, s =>
    if s = [] then .ok (t, [])
    else
      match Transport.readMessage t s with
      | .error e => .error e
      | .ok (msg, t', rest) =>
        match Transport.run fuel t' rest with
        | .error e => .error e
        | .ok (t'', msgs) => .ok (t'', msg :: msgs)

/-! ## Reference-counted buffers (buf/buffer.go and message.go) -/

/-- A retain or release step on one buffer.  `Message.Retain` and
`Message.Share` both perform `refCount.Add(1)`; `Message.Release` and
`Buffer.Release` perform `refCount.Add(-1)` and run the release hook
(finalizer / pool return) exactly when the new count is zero. -/
inductive RefOp where
  | retain
  | release
  deriving Repr, DecidableEq

/-- The operations of message.go, mapped onto the underlying buffer
refcount: `Retain` and `Share` increment, `Release` decrements. -/
inductive MsgOp where
  | retain
  | share
  | release
  deriving Repr, DecidableEq

/-- Buffer-level effect of a message operation. -/
def MsgOp.toRefOp : MsgOp → RefOp
  | .retain => .retain
  | .share => .retain
  | .release => .release

/-- Refcount state: the current count (an integer, since Go's
`Add(-1)` can drive it negative) and how many times the release hook
has run. -/
structure RCState where
  count : Int
  hookRuns : Nat
  deriving Repr, DecidableEq

/-- `NewWithFinalizer` stores count 1 and has not run the hook. -/
def RCState.init : RCState := { count := 1, hookRuns := 0 }

/-- One step of `Buffer.Retain` / `Buffer.Release`: release decrements
and fires the hook exactly when the decremented count is zero. -/
def RCState.step (s : RCState) : RefOp → RCState
  | .retain => { s with count := s.count + 1 }
  | .release =>
    let c := s.count - 1
    { count := c, hookRuns := s.hookRuns + (if c = 0 then 1 else 0) }

/-- Run a sequence of retain/release operations from a given state. -/
def RCState.run (s : RCState) (ops : List RefOp) : RCState :=
  ops.foldl RCState.step s

/-- A balanced suffix given a current positive count `c`: every release
has a matching earlier reference, and the count reaches zero exactly at
the end of the sequence. -/
def balancedFrom : Nat → List RefOp → Prop
  | c, [] => c = 0
  | c, .retain :: rest => balancedFrom (c + 1) rest
  | c, .release :: rest => 1 ≤ c ∧ (c = 1 → rest = []) ∧ balancedFrom (c - 1) rest

instance : ∀ c ops, Decidable (balancedFrom c ops) := by
  intro c ops
  induction ops generalizing c with
  | nil => simp only [balancedFrom]; infer_instance
  | cons op rest ih =>
    cases op <;> simp only [balancedFrom] <;> exact (by have := ih; infer_instance)

/-! ## Derived definitions used by the theorem statements -/

/-- The header the reader recovers from a fmt-0 chunk written for `h`:
identical `timestamp`, `messageLength`, `messageTypeID` and
`messageStreamID`; the delta seeds from the absolute timestamp and the
extended flag records whether the 24-bit field saturated. -/
def recovered0 (h : MessageHeader) : MessageHeader :=
  { timestamp := h.timestamp,
    hasExtendedTimestamp := decide (extendedTimestampThreshold ≤ h.timestamp),
    timestampDelta := h.timestamp,
    messageLength := h.messageLength,
    messageTypeID := h.messageTypeID,
    messageStreamID := h.messageStreamID }

/-- The chunk sequence writer.go emits for a fmt-0 message: full header
on the first chunk, bare fmt-3 continuations after it. -/
def fmt0Chunks (csid cs : Nat) (h : MessageHeader) (d : List Nat) :
    List Chunk :=
  { fmtType := 0, csid := csid, headerBytes := (h.writeToParts 0).1,
    extBytes := (h.writeToParts 0).2, payload := d.take cs } ::
    contChunks csid cs (d.drop cs)

/-- Reader state after a complete message `⟨rh, d⟩` has been delivered
on `csid`: the chunk stream keeps `rh` as previous header, and a valid
SetChunkSize payload may have updated the chunk size. -/
def readerAfterRead (r : ReaderState) (csid : Nat) (rh : MessageHeader)
    (d : List Nat) : ReaderState :=
  { chunkStreams := fun c =>
      if c = csid then
        some { messageHeader := rh, prevHeader := rh, buffers := [], bytesRead := 0 }
      else r.chunkStreams c,
    chunkSize := readerCtrlEffect rh.messageTypeID d r.chunkSize }

/-- A chunk stream on which the reader has no partial message and no
extended-timestamp previous header: either never created, or created and
left in that state (for example by discarding a malformed control
message). -/
def csFreshLike (r : ReaderState) (csid : Nat) : Prop :=
  match r.chunkStreams csid with
  | none => True
  | some cs => cs.bytesRead = 0 ∧ cs.buffers = [] ∧
      cs.prevHeader.hasExtendedTimestamp = false

/-- The CSID mapping exactly as the claim words it (to be compared with
`getChunkStreamID` from the source): types 1–6 on CSID 2, AMF commands
on 3, audio on 4, video on 5, AMF data on 6, everything else on 3. -/
def claimCsidOfType (t : Nat) : Nat :=
  if 1 ≤ t ∧ t ≤ 6 then 2
  else if t = 17 ∨ t = 20 then 3
  else if t = 8 then 4
  else if t = 9 then 5
  else if t = 15 ∨ t = 18 then 6
  else 3

/-- The header-format choice exactly as the claim words it (to be
compared with the writer's behaviour): no previous header forces fmt 0;
otherwise fmt 0 on MSID change, fmt 1 on length/type change, fmt 2 on
timestamp change, else fmt 3. -/
def claimFmtChoice (prev : Option MessageHeader) (h : MessageHeader) : Nat :=
  match prev with
  | none => 0
  | some p =>
    if p.messageStreamID ≠ h.messageStreamID then 0
    else if p.messageLength ≠ h.messageLength ∨
        p.messageTypeID ≠ h.messageTypeID then 1
    else if p.timestamp ≠ h.timestamp then 2
    else 3

/-- A SetChunkSize message (type 1, 4-byte payload carrying 100) built
the way `NewMessage` would build it. -/
def cexSetChunkSizeMsg : Message :=
  { header := { zeroHeader with messageTypeID := 1, messageLength := 4 },
    payload := [0, 0, 0, 100] }

/-- An audio message with `MessageStreamID = 0` and timestamp 5. -/
def cexMsidZeroMsg : Message :=
  { header := { timestamp := 5, hasExtendedTimestamp := false,
                timestampDelta := 0, messageLength := 2, messageTypeID := 8,
                messageStreamID := 0 },
    payload := [170, 187] }

/-- First message of the extended-timestamp scenario: timestamp
`0x1000000`, 200-byte audio payload on MSID 1. -/
def cexExtM1 : Message :=
  { header := { timestamp := 16777216, hasExtendedTimestamp := false,
                timestampDelta := 0, messageLength := 200, messageTypeID := 8,
                messageStreamID := 1 },
    payload := List.replicate 200 1 }

/-- Second message: timestamp `0x1000005` (delta 5), same length, type
and MSID, so the writer picks fmt 2 with a small delta. -/
def cexExtM2 : Message :=
  { header := { timestamp := 16777221, hasExtendedTimestamp := false,
                timestampDelta := 0, messageLength := 200, messageTypeID := 8,
                messageStreamID := 1 },
    payload := List.replicate 200 2 }

/-- Writer state after emitting `cexExtM1` from fresh state. -/
def cexExtState : WriterState :=
  (Writer.writeMessageP15 (WriterState.fresh 128) cexExtM1).1

/-- A 31-byte inbound stream: a WindowAckSize(10) message (16 wire
bytes) followed by three fmt-3 WindowAckSize(10) messages (5 wire bytes
each).  The first message re-baselines `lastAckSent` to 16. -/
def cexAckStream : List Nat :=
  [2] ++ [0, 0, 0, 0, 0, 4, 5, 0, 0, 0, 0] ++ [0, 0, 0, 10] ++
    ([194] ++ [0, 0, 0, 10]) ++ ([194] ++ [0, 0, 0, 10]) ++
    ([194] ++ [0, 0, 0, 10])

/-- A malformed SetChunkSize (3-byte payload) on CSID 2 followed by a
well-formed 1-byte audio message on CSID 4, MSID 1. -/
def cexMalformedStream : List Nat :=
  [2] ++ [0, 0, 0, 0, 0, 3, 1, 0, 0, 0, 0] ++ [1, 2, 3] ++
    [4] ++ [0, 0, 0, 0, 0, 1, 8, 1, 0, 0, 0] ++ [9]

/-- A fmt-1 chunk (delta 5, length 1, type audio) arriving first on
chunk stream 3, with no previous header established. -/
def cexFmt1Stream : List Nat :=
  [67] ++ [0, 0, 5, 0, 0, 1, 8] ++ [171]

/-- The round-trip scenario message: timestamp `0xFFFFFF + 1000`,
178-byte audio payload on message stream 1. -/
def cexRoundMsg : Message :=
  { header := { timestamp := 16778215, hasExtendedTimestamp := false,
                timestampDelta := 0, messageLength := 178, messageTypeID := 8,
                messageStreamID := 1 },
    payload := List.replicate 178 7 }

/-- A completed chunk-stream entry holding a malformed SetChunkSize:
type 1 with a 3-byte payload. -/
def cexBadEntry : ChunkStreamState :=
  { messageHeader := { zeroHeader with messageTypeID := 1, messageLength := 3 },
    prevHeader := zeroHeader, buffers := [1, 2, 3], bytesRead := 3 }

/-- A reader whose chunk stream 2 holds the malformed entry. -/
def cexBadReader : ReaderState :=
  { chunkStreams := fun c => if c = 2 then some cexBadEntry else none,
    chunkSize := 128 }

/-- An audio message with `MessageLength = 0` (empty payload). -/
def cexEmptyMsg : Message :=
  { header := { timestamp := 7, hasExtendedTimestamp := false,
                timestampDelta := 0, messageLength := 0, messageTypeID := 8,
                messageStreamID := 1 },
    payload := [] }

/-! ## Codec lemmas -/

theorem readU24BE_write (v : Nat) (hv : v < 16777216) (r : List Nat) :
    readU24BE (writeUint24BE v ++ r) = .ok (v, r) := by
  have : v / 65536 % 256 * 65536 + v / 256 % 256 * 256 + v % 256 = v := by omega
  simp [readU24BE, writeUint24BE, this]

theorem readU32BE_write (v : Nat) (hv : v < 4294967296) (r : List Nat) :
    readU32BE (writeUint32BE v ++ r) = .ok (v, r) := by
  have : v / 16777216 % 256 * 16777216 + v / 65536 % 256 * 65536 +
      v / 256 % 256 * 256 + v % 256 = v := by omega
  simp [readU32BE, writeUint32BE, this]

theorem readU32LE_write (v : Nat) (hv : v < 4294967296) (r : List Nat) :
    readU32LE (writeUint32LE v ++ r) = .ok (v, r) := by
  have : v % 256 + (v / 256 % 256 * 256 + (v / 65536 % 256 * 65536 +
      v / 16777216 % 256 * 16777216)) = v := by omega
  simp [readU32LE, writeUint32LE]
  omega

theorem readByteP_cons (b : Nat) (r : List Nat) :
    readByteP (b :: r) = .ok (b, r) := rfl

theorem readBasicHeader_write (fmtv csid : Nat) (hf : fmtv < 4)
    (h2 : 2 ≤ csid) (h64 : csid < 64) (r : List Nat) :
    readBasicHeader (basicHeaderBytes fmtv csid ++ r) = .ok ((fmtv, csid), r) := by
  have hdiv : (fmtv * 64 + csid) / 64 % 4 = fmtv := by omega
  have hmod : (fmtv * 64 + csid) % 64 = csid := by omega
  have hne0 : ¬ (csid = 0) := by omega
  have hne1 : ¬ (csid = 1) := by omega
  simp [basicHeaderBytes, if_pos h64, readBasicHeader, hdiv, hmod, hne0, hne1]

theorem writeToParts0_ext (h : MessageHeader)
    (hext : extendedTimestampThreshold ≤ h.timestamp) :
    h.writeToParts 0 =
      (writeUint24BE extendedTimestampThreshold ++ writeUint24BE h.messageLength ++
        [h.messageTypeID % 256] ++ writeUint32LE h.messageStreamID,
       writeUint32BE h.timestamp) := by
  simp [MessageHeader.writeToParts, hext]

theorem writeToParts0_noext (h : MessageHeader)
    (hext : ¬ extendedTimestampThreshold ≤ h.timestamp) :
    h.writeToParts 0 =
      (writeUint24BE h.timestamp ++ writeUint24BE h.messageLength ++
        [h.messageTypeID % 256] ++ writeUint32LE h.messageStreamID, []) := by
  simp [MessageHeader.writeToParts, hext]

theorem readMessageHeaderGo_zero (prev : Option MessageHeader) (s : List Nat) :
    readMessageHeaderGo 0 prev s = readMessageHeaderFmt0 s := by
  simp [readMessageHeaderGo]

theorem readMessageHeaderGo_fmt0 (h : MessageHeader) (prev : Option MessageHeader)
    (r : List Nat) (hts : h.timestamp < 4294967296)
    (hlen : h.messageLength < 16777216) (htid : h.messageTypeID < 256)
    (hmsid : h.messageStreamID < 4294967296) :
    readMessageHeaderGo 0 prev ((h.writeToParts 0).1 ++ ((h.writeToParts 0).2 ++ r)) =
      .ok (recovered0 h, r) := by
  have htid' : h.messageTypeID % 256 = h.messageTypeID := Nat.mod_eq_of_lt htid
  rw [readMessageHeaderGo_zero]
  by_cases hext : extendedTimestampThreshold ≤ h.timestamp
  · have hthr : extendedTimestampThreshold < 16777216 := by
      simp [extendedTimestampThreshold]
    rw [writeToParts0_ext h hext]
    simp only [htid', List.append_assoc, List.cons_append, List.nil_append]
    rw [readMessageHeaderFmt0.eq_def, readU24BE_write _ hthr]
    simp only []
    rw [readU24BE_write _ hlen]
    simp only [readByteP]
    rw [readU32LE_write _ hmsid]
    simp only [if_pos rfl]
    rw [readU32BE_write _ hts]
    simp [recovered0, hext]
  · have hlt : h.timestamp < 16777216 := by
      simp only [extendedTimestampThreshold, not_le] at hext; omega
    have hne : ¬ (h.timestamp = extendedTimestampThreshold) := by
      simp only [extendedTimestampThreshold] at hext ⊢; omega
    rw [writeToParts0_noext h hext]
    simp only [htid', List.append_nil, List.append_assoc, List.cons_append,
      List.nil_append]
    rw [readMessageHeaderFmt0.eq_def, readU24BE_write _ hlt]
    simp only []
    rw [readU24BE_write _ hlen]
    simp only [readByteP]
    rw [readU32LE_write _ hmsid]
    simp [hne, recovered0, hext]

theorem readMessageHeaderGo_three (prev : Option MessageHeader) (s : List Nat) :
    readMessageHeaderGo 3 prev s = readMessageHeaderFmt3 prev s := by
  simp [readMessageHeaderGo]

theorem readMessageHeaderGo_fmt3_noext (p : MessageHeader) (r : List Nat)
    (hp : p.hasExtendedTimestamp = false) :
    readMessageHeaderGo 3 (some p) r =
      .ok ({ timestamp := u32 (p.timestamp + p.timestampDelta),
             hasExtendedTimestamp := p.hasExtendedTimestamp,
             timestampDelta := p.timestampDelta,
             messageLength := p.messageLength,
             messageTypeID := p.messageTypeID,
             messageStreamID := p.messageStreamID }, r) := by
  simp [readMessageHeaderGo, readMessageHeaderFmt3, hp]

/-! ## Chunking lemmas -/

theorem contChunksAux_congr (csid cs : Nat) :
    ∀ f1 f2 d, d.length ≤ f1 → d.length ≤ f2 →
      contChunksAux csid cs f1 d = contChunksAux csid cs f2 d := by
  intro f1
  induction f1 with
  | zero =>
    intro f2 d h1 h2
    have hd : d = [] := by cases d <;> simp_all
    subst hd
    cases f2 <;> simp [contChunksAux]
  | succ n ih =>
    intro f2 d h1 h2
    cases d with
    | nil => cases f2 <;> simp [contChunksAux]
    | cons a t =>
      cases f2 with
      | zero => simp at h2
      | succ m =>
        simp only [contChunksAux]
        by_cases hcs : cs = 0
        · simp [hcs]
        · simp only [hcs, if_false]
          have hlen : ((a :: t).drop cs).length ≤ n := by
            simp only [List.length_drop, List.length_cons]
            simp only [List.length_cons] at h1
            omega
          have hlen2 : ((a :: t).drop cs).length ≤ m := by
            simp only [List.length_drop, List.length_cons]
            simp only [List.length_cons] at h2
            omega
          rw [ih _ _ hlen hlen2]

theorem contChunks_nil (csid cs : Nat) : contChunks csid cs [] = [] := rfl

theorem contChunks_cons (csid cs : Nat) (d : List Nat) (hcs : 1 ≤ cs)
    (hd : d ≠ []) :
    contChunks csid cs d =
      { fmtType := 3, csid := csid, headerBytes := [], extBytes := [],
        payload := d.take cs } :: contChunks csid cs (d.drop cs) := by
  cases d with
  | nil => exact absurd rfl hd
  | cons a t =>
    show contChunksAux csid cs (t.length + 1) (a :: t) = _
    simp only [contChunksAux]
    have hcs0 : ¬ (cs = 0) := by omega
    simp only [hcs0, if_false]
    rw [contChunksAux_congr csid cs t.length ((a :: t).drop cs).length]
    · rfl
    · simp only [List.length_drop, List.length_cons]; omega
    · exact Nat.le_refl _

theorem wireOf_nil : wireOf [] = [] := rfl

theorem wireOf_cons (c : Chunk) (l : List Chunk) :
    wireOf (c :: l) = c.flatten ++ wireOf l := by
  simp [wireOf]

theorem basicHeaderBytes_small (fmtv csid : Nat) (h64 : csid < 64) :
    basicHeaderBytes fmtv csid = [fmtv * 64 + csid] := by
  simp [basicHeaderBytes, h64]

theorem contChunks_wire_length (csid cs : Nat) (hcs : 1 ≤ cs) (h64 : csid < 64) :
    ∀ n d, d.length ≤ n →
      (wireOf (contChunks csid cs d)).length =
        d.length + (d.length + cs - 1) / cs := by
  intro n
  induction n with
  | zero =>
    intro d hd
    have : d = [] := by cases d <;> simp_all
    subst this
    simp [contChunks_nil, wireOf_nil, Nat.div_eq_of_lt (by omega : cs - 1 < cs)]
  | succ n ih =>
    intro d hd
    by_cases hdn : d = []
    · subst hdn
      simp [contChunks_nil, wireOf_nil, Nat.div_eq_of_lt (by omega : cs - 1 < cs)]
    · have h1 : 0 < d.length := List.length_pos.mpr hdn
      rw [contChunks_cons csid cs d hcs hdn, wireOf_cons]
      have hlt : (d.drop cs).length ≤ n := by
        simp only [List.length_drop]
        omega
      simp only [Chunk.flatten, basicHeaderBytes_small 3 csid h64,
        List.length_append, List.length_cons, List.length_nil,
        List.length_take]
      rw [ih _ hlt]
      simp only [List.length_drop]
      rcases Nat.le_total cs d.length with hle | hle
      · have e1 : min cs d.length = cs := Nat.min_eq_left hle
        have e2 : d.length - cs + cs - 1 = d.length - 1 := by omega
        have e3 : d.length - 1 + cs = d.length + cs - 1 := by omega
        rw [e1, e2]
        have e4 : (d.length + cs - 1) / cs = (d.length - 1) / cs + 1 := by
          rw [← e3, Nat.add_div_right _ (by omega : 0 < cs)]
        rw [e4]
        omega
      · have e1 : min cs d.length = d.length := Nat.min_eq_right hle
        have e2 : d.length - cs = 0 := by omega
        have e3 : (d.length + cs - 1) / cs = 1 := by
          have ha : d.length + cs - 1 = (d.length - 1) + cs := by omega
          rw [ha, Nat.add_div_right _ (by omega : 0 < cs),
            Nat.div_eq_of_lt (by omega : d.length - 1 < cs)]
        rw [e1, e2, e3]
        simp [Nat.div_eq_of_lt (by omega : cs - 1 < cs)]
        omega

/-! ## Reading one complete message -/

theorem readerAfterRead_congr (r r' : ReaderState) (csid : Nat)
    (rh : MessageHeader) (d : List Nat) (hsz : r.chunkSize = r'.chunkSize)
    (hcs : ∀ c, c ≠ csid → r.chunkStreams c = r'.chunkStreams c) :
    readerAfterRead r csid rh d = readerAfterRead r' csid rh d := by
  simp only [readerAfterRead, ReaderState.mk.injEq, hsz]
  constructor
  · funext c
    by_cases hc : c = csid
    · simp [hc]
    · simp [hc, hcs c hc]
  · trivial

theorem getReadyMessage_incomplete (r : ReaderState) (csid : Nat)
    (e : ChunkStreamState) (he : r.chunkStreams csid = some e)
    (hinc : ¬ e.messageHeader.messageLength ≤ e.bytesRead) :
    Reader.getReadyMessage r csid = (none, r) := by
  unfold Reader.getReadyMessage
  rw [he]
  simp [hinc]

theorem getReadyMessage_complete_valid (r : ReaderState) (csid : Nat)
    (e : ChunkStreamState) (he : r.chunkStreams csid = some e)
    (hcomp : e.messageHeader.messageLength ≤ e.bytesRead)
    (hval : validCtrlLen e.messageHeader.messageTypeID
      (e.buffers.take e.messageHeader.messageLength).length = true) :
    Reader.getReadyMessage r csid =
      (some { header := e.messageHeader, payload := e.buffers },
       { chunkStreams := fun c => if c = csid then some { messageHeader := e.messageHeader, prevHeader := e.messageHeader, buffers := [], bytesRead := 0 } else r.chunkStreams c,
         chunkSize := readerCtrlEffect e.messageHeader.messageTypeID
           (e.buffers.take e.messageHeader.messageLength) r.chunkSize }) := by
  unfold Reader.getReadyMessage
  rw [he]
  simp only [hcomp, if_true]
  simp only [Message.data] at *
  rw [List.length_take] at hval
  simp [hval]

theorem getReadyMessage_complete_invalid (r : ReaderState) (csid : Nat)
    (e : ChunkStreamState) (he : r.chunkStreams csid = some e)
    (hcomp : e.messageHeader.messageLength ≤ e.bytesRead)
    (hval : validCtrlLen e.messageHeader.messageTypeID
      (e.buffers.take e.messageHeader.messageLength).length = false) :
    Reader.getReadyMessage r csid =
      (none,
       { r with chunkStreams := fun c => if c = csid then some { e with buffers := [], bytesRead := 0 } else r.chunkStreams c }) := by
  unfold Reader.getReadyMessage
  rw [he]
  simp only [hcomp, if_true]
  simp only [Message.data] at *
  rw [List.length_take] at hval
  simp [hval]

theorem readMessageFuel_cont (csid cs : Nat) (h2 : 2 ≤ csid) (h64 : csid < 64)
    (hcs : 1 ≤ cs) (rh ph : MessageHeader)
    (hph : ph.hasExtendedTimestamp = false)
    (hvalid : validCtrlLen rh.messageTypeID rh.messageLength = true) :
    ∀ fuel (d acc : List Nat) (r : ReaderState) (rest : List Nat),
      d ≠ [] → acc ≠ [] →
      acc.length + d.length = rh.messageLength →
      r.chunkStreams csid = some { messageHeader := rh, prevHeader := ph, buffers := acc, bytesRead := acc.length } →
      r.chunkSize = cs →
      d.length ≤ fuel →
      Reader.readMessageFuel fuel r (wireOf (contChunks csid cs d) ++ rest) =
        .ok ({ header := rh, payload := acc ++ d },
          readerAfterRead r csid rh (acc ++ d), rest) := by
  intro fuel
  induction fuel with
  | zero =>
    intro d acc r rest hd _ _ _ _ hfuel
    have h1 : 0 < d.length := List.length_pos.mpr hd
    omega
  | succ f ih =>
    intro d acc r rest hd hacc hsum hcsid hsize hfuel
    have hdpos : 0 < d.length := List.length_pos.mpr hd
    have haccpos : 0 < acc.length := List.length_pos.mpr hacc
    rw [contChunks_cons csid cs d hcs hd, wireOf_cons]
    simp only [Chunk.flatten, List.nil_append, List.append_nil, List.append_assoc]
    rw [Reader.readMessageFuel]
    rw [Reader.readChunk.eq_def]
    rw [readBasicHeader_write 3 csid (by omega) h2 h64]
    simp only [hcsid, Option.getD_some]
    rw [readMessageHeaderGo_fmt3_noext ph _ hph]
    simp only []
    have hbne : ¬ (acc.length = 0) := by omega
    simp only [hbne, if_false]
    have hrem : rh.messageLength - acc.length = d.length := by omega
    rw [hsize, hrem]
    have hmin0 : ¬ (min cs d.length = 0) := by
      simp only [Nat.min_eq_zero_iff]
      omega
    simp only [hmin0, if_false]
    have htklen : (d.take cs).length = min cs d.length := by
      simp [List.length_take, Nat.min_comm]
    have hnlt : ¬ ((d.take cs ++ (wireOf (contChunks csid cs (d.drop cs)) ++ rest)).length <
        min cs d.length) := by
      simp only [List.length_append, htklen]
      omega
    simp only [hnlt, if_false]
    rw [List.take_left' htklen, List.drop_left' htklen]
    rcases Nat.lt_or_ge cs d.length with hlt | hge
    · -- more chunks to come: not complete, loop again
      have hmin : min cs d.length = cs := Nat.min_eq_left (Nat.le_of_lt hlt)
      have htk : (d.take cs).length = cs := by rw [htklen, hmin]
      rw [getReadyMessage_incomplete _ csid
        { messageHeader := rh, prevHeader := ph, buffers := acc ++ d.take cs, bytesRead := acc.length + min cs d.length }
        (by simp) (by simp only []; omega)]
      have ihres := ih (d.drop cs) (acc ++ d.take cs)
        { r with chunkStreams := fun c => if c = csid then some { messageHeader := rh, prevHeader := ph, buffers := acc ++ d.take cs, bytesRead := acc.length + min cs d.length } else r.chunkStreams c } rest
        (by
          have hp : 0 < (d.drop cs).length := by simp [List.length_drop]; omega
          exact List.length_pos.mp hp)
        (by simp [hacc])
        (by simp [List.length_append, htk, List.length_drop, hmin]; omega)
        (by simp [htk, hmin])
        (by simp [hsize])
        (by simp [List.length_drop]; omega)
      rw [hsize] at ihres
      simp only []
      rw [ihres]
      rw [List.append_assoc, List.take_append_drop]
      have hstate : readerAfterRead { chunkStreams := fun c => if c = csid then some { messageHeader := rh, prevHeader := ph, buffers := acc ++ d.take cs, bytesRead := acc.length + min cs d.length } else r.chunkStreams c, chunkSize := cs } csid rh (acc ++ d) = readerAfterRead r csid rh (acc ++ d) := by
        apply readerAfterRead_congr
        · exact hsize.symm
        · intro c hc
          simp [hc]
      rw [hstate]
    · -- final chunk: message completes
      have hmin : min cs d.length = d.length := Nat.min_eq_right hge
      have htkall : d.take cs = d := List.take_of_length_le hge
      have hdrall : d.drop cs = [] := List.drop_eq_nil_of_le hge
      rw [hdrall, contChunks_nil, wireOf_nil]
      simp only [List.nil_append]
      have hdlen : (acc ++ d).length = rh.messageLength := by
        simp [List.length_append, hsum]
      have hdtake : (acc ++ d).take rh.messageLength = acc ++ d := by
        rw [← hdlen]
        exact List.take_length _
      rw [htkall]
      rw [getReadyMessage_complete_valid _ csid
        { messageHeader := rh, prevHeader := ph, buffers := acc ++ d, bytesRead := acc.length + min cs d.length }
        (by simp) (by simp only []; omega)
        (by simp only []; rw [hdtake, hdlen]; exact hvalid)]
      simp only [readerAfterRead, hdtake, hsize]
      have hfun : (fun c => if c = csid then some ({ messageHeader := rh, prevHeader := rh, buffers := [], bytesRead := 0 } : ChunkStreamState) else if c = csid then some ({ messageHeader := rh, prevHeader := ph, buffers := acc ++ d, bytesRead := acc.length + min cs d.length } : ChunkStreamState) else r.chunkStreams c) = (fun c => if c = csid then some ({ messageHeader := rh, prevHeader := rh, buffers := [], bytesRead := 0 } : ChunkStreamState) else r.chunkStreams c) := by
        funext c
        by_cases hc : c = csid <;> simp [hc]
      rw [hfun]

theorem readMessageFuel_fmt0 (csid cs : Nat) (h2 : 2 ≤ csid) (h64 : csid < 64)
    (hcs : 1 ≤ cs) (h : MessageHeader) (d : List Nat)
    (hts : h.timestamp < 4294967296) (htid : h.messageTypeID < 256)
    (hmsid : h.messageStreamID < 4294967296)
    (hlen : h.messageLength = d.length) (hd : d ≠ [])
    (hlen24 : d.length < 16777216)
    (hvalid : validCtrlLen h.messageTypeID d.length = true) :
    ∀ fuel (r : ReaderState) (rest : List Nat),
      csFreshLike r csid → r.chunkSize = cs → d.length + 1 ≤ fuel →
      Reader.readMessageFuel fuel r (wireOf (fmt0Chunks csid cs h d) ++ rest) =
        .ok ({ header := recovered0 h, payload := d },
          readerAfterRead r csid (recovered0 h) d, rest) := by
  intro fuel r rest hfresh hsize hfuel
  have hdpos : 0 < d.length := List.length_pos.mpr hd
  cases fuel with
  | zero => omega
  | succ f =>
  have hfacts : ((r.chunkStreams csid).getD ChunkStreamState.new).bytesRead = 0 ∧
      ((r.chunkStreams csid).getD ChunkStreamState.new).buffers = [] ∧
      ((r.chunkStreams csid).getD ChunkStreamState.new).prevHeader.hasExtendedTimestamp = false := by
    rcases hcase : r.chunkStreams csid with _ | e
    · simp [hcase, ChunkStreamState.new, zeroHeader]
    · simp only [csFreshLike, hcase] at hfresh
      simp [hcase, hfresh.1, hfresh.2.1, hfresh.2.2]
  obtain ⟨hb, hbuf, hpx⟩ := hfacts
  have hlenlt : h.messageLength < 16777216 := by omega
  rw [fmt0Chunks, wireOf_cons]
  simp only [Chunk.flatten, List.append_assoc]
  rw [Reader.readMessageFuel]
  rw [Reader.readChunk.eq_def]
  rw [readBasicHeader_write 0 csid (by omega) h2 h64]
  simp only []
  rw [readMessageHeaderGo_fmt0 h _ _ hts hlenlt htid hmsid]
  have hrlen : (recovered0 h).messageLength = d.length := by
    simp [recovered0, hlen]
  simp only [hb, if_pos rfl, if_true, hrlen, Nat.sub_zero]
  have hmin0 : ¬ (min cs d.length = 0) := by
    simp only [Nat.min_eq_zero_iff]
    omega
  have htklen : (d.take cs).length = min cs d.length := by
    simp [List.length_take, Nat.min_comm]
  have hnlt : ¬ ((d.take cs ++ (wireOf (contChunks csid cs (d.drop cs)) ++ rest)).length <
      min cs d.length) := by
    simp only [List.length_append, htklen]
    omega
  simp only [hsize, hmin0, hnlt, if_false]
  rw [List.take_left' htklen, List.drop_left' htklen]
  simp only [hbuf, List.nil_append]
  rcases Nat.lt_or_ge cs d.length with hlt | hge
  · -- multi-chunk message: hand over to the continuation loop
    have hmin : min cs d.length = cs := Nat.min_eq_left (Nat.le_of_lt hlt)
    have htk : (d.take cs).length = cs := by rw [htklen, hmin]
    have hconts := readMessageFuel_cont csid cs h2 h64 hcs (recovered0 h)
      ((r.chunkStreams csid).getD ChunkStreamState.new).prevHeader hpx
      (by simp only [recovered0]; rw [hlen]; exact hvalid)
      f (d.drop cs) (d.take cs)
      { chunkStreams := fun c => if c = csid then some { messageHeader := recovered0 h, prevHeader := ((r.chunkStreams csid).getD ChunkStreamState.new).prevHeader, buffers := d.take cs, bytesRead := 0 + min cs d.length } else r.chunkStreams c, chunkSize := cs } rest
      (by
        have hp : 0 < (d.drop cs).length := by simp [List.length_drop]; omega
        exact List.length_pos.mp hp)
      (by
        have hp : 0 < (d.take cs).length := by rw [htk]; omega
        exact List.length_pos.mp hp)
      (by simp [htk, List.length_drop, hrlen]; omega)
      (by simp [htk, hmin])
      (by simp)
      (by simp [List.length_drop]; omega)
    rw [getReadyMessage_incomplete _ csid
      { messageHeader := recovered0 h, prevHeader := ((r.chunkStreams csid).getD ChunkStreamState.new).prevHeader, buffers := d.take cs, bytesRead := 0 + min cs d.length }
      (by simp)
      (by simp only []; rw [hrlen, hmin]; omega)]
    simp only []
    rw [hconts]
    rw [List.take_append_drop]
    have hstate : readerAfterRead { chunkStreams := fun c => if c = csid then some { messageHeader := recovered0 h, prevHeader := ((r.chunkStreams csid).getD ChunkStreamState.new).prevHeader, buffers := d.take cs, bytesRead := 0 + min cs d.length } else r.chunkStreams c, chunkSize := cs } csid (recovered0 h) d = readerAfterRead r csid (recovered0 h) d := by
      apply readerAfterRead_congr
      · exact hsize.symm
      · intro c hc
        simp [hc]
    rw [hstate]
  · -- single-chunk message: completes immediately
    have hmin : min cs d.length = d.length := Nat.min_eq_right hge
    have htkall : d.take cs = d := List.take_of_length_le hge
    have hdrall : d.drop cs = [] := List.drop_eq_nil_of_le hge
    rw [hdrall, contChunks_nil, wireOf_nil]
    simp only [List.nil_append, htkall]
    have hdtake : d.take (recovered0 h).messageLength = d := by
      rw [hrlen]
      exact List.take_length _
    rw [getReadyMessage_complete_valid _ csid
      { messageHeader := recovered0 h, prevHeader := ((r.chunkStreams csid).getD ChunkStreamState.new).prevHeader, buffers := d, bytesRead := 0 + min cs d.length }
      (by simp) (by simp only []; rw [hrlen]; omega)
      (by simp only []; rw [hdtake]; simp only [recovered0]; exact hvalid)]
    simp only [readerAfterRead, hdtake, hsize]
    have hfun : (fun c => if c = csid then some ({ messageHeader := recovered0 h, prevHeader := recovered0 h, buffers := [], bytesRead := 0 } : ChunkStreamState) else if c = csid then some ({ messageHeader := recovered0 h, prevHeader := ((r.chunkStreams csid).getD ChunkStreamState.new).prevHeader, buffers := d, bytesRead := 0 + min cs d.length } : ChunkStreamState) else r.chunkStreams c) = (fun c => if c = csid then some ({ messageHeader := recovered0 h, prevHeader := recovered0 h, buffers := [], bytesRead := 0 } : ChunkStreamState) else r.chunkStreams c) := by
      funext c
      by_cases hc : c = csid <;> simp [hc]
    rw [hfun]

/-! ## Writer support lemmas -/

theorem basicHeaderBytes_ne_nil (fmtv csid : Nat) :
    basicHeaderBytes fmtv csid ≠ [] := by
  unfold basicHeaderBytes
  split_ifs <;> simp

theorem getChunkStreamID_range (t : Nat) :
    2 ≤ getChunkStreamID t ∧ getChunkStreamID t < 64 := by
  unfold getChunkStreamID
  split_ifs <;> omega

theorem getChunkStreamID_eq_claim (t : Nat) :
    getChunkStreamID t = claimCsidOfType t := by
  unfold getChunkStreamID claimCsidOfType
  split_ifs <;> omega

theorem contChunksAux_mem (csid cs : Nat) :
    ∀ fuel (d : List Nat) (c : Chunk), c ∈ contChunksAux csid cs fuel d →
      c.fmtType = 3 ∧ c.csid = csid ∧ c.headerBytes = [] ∧ c.extBytes = [] := by
  intro fuel
  induction fuel with
  | zero => intro d c hc; simp [contChunksAux] at hc
  | succ f ih =>
    intro d c hc
    cases d with
    | nil => simp [contChunksAux] at hc
    | cons a t =>
      simp only [contChunksAux] at hc
      by_cases h0 : cs = 0
      · simp [h0] at hc
      · simp only [h0, if_false, List.mem_cons] at hc
        rcases hc with hc | hc
        · subst hc; exact ⟨rfl, rfl, rfl, rfl⟩
        · exact ih _ c hc

theorem contChunksP15Aux_mem (csid cs : Nat) (hasExt : Bool) (delta : Nat) :
    ∀ fuel (d : List Nat) (c : Chunk), c ∈ contChunksP15Aux csid cs hasExt delta fuel d →
      c.fmtType = 3 ∧ c.csid = csid ∧
        c.extBytes = (if hasExt then writeUint32BE delta else []) := by
  intro fuel
  induction fuel with
  | zero => intro d c hc; simp [contChunksP15Aux] at hc
  | succ f ih =>
    intro d c hc
    cases d with
    | nil => simp [contChunksP15Aux] at hc
    | cons a t =>
      simp only [contChunksP15Aux] at hc
      by_cases h0 : cs = 0
      · simp [h0] at hc
      · simp only [h0, if_false, List.mem_cons] at hc
        rcases hc with hc | hc
        · subst hc; exact ⟨rfl, rfl, rfl⟩
        · exact ih _ c hc

theorem fmt0_wire_length_ge (csid cs : Nat) (hcs : 1 ≤ cs) (h64 : csid < 64)
    (h : MessageHeader) (d : List Nat) :
    d.length ≤ (wireOf (fmt0Chunks csid cs h d)).length := by
  rw [fmt0Chunks, wireOf_cons]
  have hlen := contChunks_wire_length csid cs hcs h64 (d.drop cs).length
    (d.drop cs) (Nat.le_refl _)
  have hdl : (List.drop cs d).length = d.length - cs := by simp
  rw [hdl] at hlen
  simp only [List.length_append, hlen, Chunk.flatten,
    basicHeaderBytes_small 0 csid h64, List.length_cons, List.length_nil,
    List.length_take, hdl]
  have hq := Nat.zero_le ((d.length - cs + cs - 1) / cs)
  rcases Nat.le_total cs d.length with hle | hle
  · rw [Nat.min_eq_left hle]
    omega
  · rw [Nat.min_eq_right hle]
    omega

theorem writer_fresh_fmt0 (cs : Nat) (msg : Message)
    (hmsid0 : msg.header.messageStreamID ≠ 0) (hd : msg.data ≠ []) :
    (Writer.writeMessage (WriterState.fresh cs) msg).2 =
      fmt0Chunks (getChunkStreamID msg.header.messageTypeID) cs
        msg.header msg.data := by
  have hfmt : determineFormatType zeroHeader msg.header = 0 := by
    unfold determineFormatType zeroHeader
    simp only []
    rw [if_pos (Ne.symm hmsid0)]
  simp only [Writer.writeMessage, WriterState.fresh, Option.getD_none, hfmt,
    hd, if_false, fmt0Chunks]

theorem readMessage_fmt0 (csid cs : Nat) (h2 : 2 ≤ csid) (h64 : csid < 64)
    (hcs : 1 ≤ cs) (h : MessageHeader) (d : List Nat)
    (hts : h.timestamp < 4294967296) (htid : h.messageTypeID < 256)
    (hmsid : h.messageStreamID < 4294967296)
    (hlen : h.messageLength = d.length) (hd : d ≠ [])
    (hlen24 : d.length < 16777216)
    (hvalid : validCtrlLen h.messageTypeID d.length = true)
    (r : ReaderState) (rest : List Nat)
    (hfresh : csFreshLike r csid) (hsize : r.chunkSize = cs) :
    Reader.readMessage r (wireOf (fmt0Chunks csid cs h d) ++ rest) =
      .ok ({ header := recovered0 h, payload := d },
        readerAfterRead r csid (recovered0 h) d, rest) := by
  unfold Reader.readMessage
  apply readMessageFuel_fmt0 csid cs h2 h64 hcs h d hts htid hmsid hlen hd
    hlen24 hvalid _ r rest hfresh hsize
  have := fmt0_wire_length_ge csid cs hcs h64 h d
  simp only [List.length_append]
  omega

/-! ## Acknowledgement-window lemmas (transport.go) -/

theorem sendAck_acksOut (t : TransportState) (n : Nat) :
    (Transport.sendAcknowledgement t n).acksOut = t.acksOut ++ [u32 n] := rfl

theorem sendAck_lastAckSent (t : TransportState) (n : Nat) :
    (Transport.sendAcknowledgement t n).lastAckSent = t.lastAckSent := rfl

theorem sendAck_bytesRead (t : TransportState) (n : Nat) :
    (Transport.sendAcknowledgement t n).bytesRead = t.bytesRead := rfl

theorem sendAck_windowAckSize (t : TransportState) (n : Nat) :
    (Transport.sendAcknowledgement t n).windowAckSize = t.windowAckSize := rfl

theorem ackLoopAux_spec :
    ∀ fuel (t : TransportState),
      (t.bytesRead - t.lastAckSent) / t.windowAckSize ≤ fuel →
      (Transport.ackLoopAux fuel t).acksOut =
        t.acksOut ++ (List.range ((t.bytesRead - t.lastAckSent) / t.windowAckSize)).map
          (fun i => u32 (t.lastAckSent + t.windowAckSize * (i + 1))) ∧
      (Transport.ackLoopAux fuel t).lastAckSent =
        t.lastAckSent + t.windowAckSize * ((t.bytesRead - t.lastAckSent) / t.windowAckSize) ∧
      (Transport.ackLoopAux fuel t).bytesRead = t.bytesRead ∧
      (Transport.ackLoopAux fuel t).windowAckSize = t.windowAckSize := by
  intro fuel
  induction fuel with
  | zero =>
    intro t hk
    have hk0 : (t.bytesRead - t.lastAckSent) / t.windowAckSize = 0 :=
      Nat.le_zero.mp hk
    rw [hk0]
    simp [Transport.ackLoopAux]
  | succ f ih =>
    intro t hk
    rw [Transport.ackLoopAux]
    by_cases hW : t.windowAckSize = 0
    · rw [if_pos hW, hW]
      simp [Nat.div_zero]
    · rw [if_neg hW]
      have hW1 : 0 < t.windowAckSize := Nat.pos_of_ne_zero hW
      by_cases hg : t.windowAckSize ≤ t.bytesRead - t.lastAckSent
      · rw [if_pos hg]
        have hr : t.bytesRead - t.lastAckSent =
            (t.bytesRead - (t.lastAckSent + t.windowAckSize)) + t.windowAckSize := by
          omega
        have hdiv : (t.bytesRead - t.lastAckSent) / t.windowAckSize =
            (t.bytesRead - (t.lastAckSent + t.windowAckSize)) / t.windowAckSize + 1 := by
          rw [hr, Nat.add_div_right _ hW1]
        have e1 : (Transport.sendAcknowledgement { t with lastAckSent := t.lastAckSent + t.windowAckSize } (t.lastAckSent + t.windowAckSize)).bytesRead = t.bytesRead := rfl
        have e2 : (Transport.sendAcknowledgement { t with lastAckSent := t.lastAckSent + t.windowAckSize } (t.lastAckSent + t.windowAckSize)).lastAckSent = t.lastAckSent + t.windowAckSize := rfl
        have e3 : (Transport.sendAcknowledgement { t with lastAckSent := t.lastAckSent + t.windowAckSize } (t.lastAckSent + t.windowAckSize)).windowAckSize = t.windowAckSize := rfl
        have e4 : (Transport.sendAcknowledgement { t with lastAckSent := t.lastAckSent + t.windowAckSize } (t.lastAckSent + t.windowAckSize)).acksOut = t.acksOut ++ [u32 (t.lastAckSent + t.windowAckSize)] := rfl
        have hfuel' : ((Transport.sendAcknowledgement { t with lastAckSent := t.lastAckSent + t.windowAckSize } (t.lastAckSent + t.windowAckSize)).bytesRead - (Transport.sendAcknowledgement { t with lastAckSent := t.lastAckSent + t.windowAckSize } (t.lastAckSent + t.windowAckSize)).lastAckSent) / (Transport.sendAcknowledgement { t with lastAckSent := t.lastAckSent + t.windowAckSize } (t.lastAckSent + t.windowAckSize)).windowAckSize ≤ f := by
          rw [e1, e2, e3]
          omega
        obtain ⟨ih1, ih2, ih3, ih4⟩ := ih _ hfuel'
        rw [e1, e2, e3, e4] at ih1
        rw [e1, e2, e3] at ih2
        rw [e3] at ih4
        have hmap : (List.range ((t.bytesRead - t.lastAckSent) / t.windowAckSize)).map
            (fun i => u32 (t.lastAckSent + t.windowAckSize * (i + 1))) =
          u32 (t.lastAckSent + t.windowAckSize) ::
            (List.range ((t.bytesRead - (t.lastAckSent + t.windowAckSize)) / t.windowAckSize)).map
              (fun i => u32 (t.lastAckSent + t.windowAckSize + t.windowAckSize * (i + 1))) := by
          rw [hdiv, List.range_succ_eq_map, List.map_cons, List.map_map]
          refine List.cons_eq_cons.mpr ⟨?_, ?_⟩
          · exact congrArg u32 (by ring)
          · refine List.map_congr_left ?_
            intro i _
            simp only [Function.comp_apply, Nat.succ_eq_add_one]
            exact congrArg u32 (by ring)
        refine ⟨?_, ?_, ?_, ?_⟩
        · rw [ih1, hmap]
          simp [List.append_assoc]
        · rw [ih2, hdiv]
          ring
        · exact ih3
        · exact ih4
      · rw [if_neg hg]
        have hk0 : (t.bytesRead - t.lastAckSent) / t.windowAckSize = 0 :=
          Nat.div_eq_of_lt (by omega)
        rw [hk0]
        simp

/-! ## Reference-count lemmas (buf/buffer.go, message.go) -/

theorem rc_step_retain_count (s : RCState) :
    (RCState.step s .retain).count = s.count + 1 := rfl

theorem rc_step_retain_hook (s : RCState) :
    (RCState.step s .retain).hookRuns = s.hookRuns := rfl

theorem rc_step_release_count (s : RCState) :
    (RCState.step s .release).count = s.count - 1 := rfl

theorem rc_step_release_hook (s : RCState) :
    (RCState.step s .release).hookRuns =
      s.hookRuns + (if s.count - 1 = 0 then 1 else 0) := rfl

theorem rc_run_count (ops : List RefOp) : ∀ (c : Nat) (s : RCState),
    s.count = (c : Int) → balancedFrom c ops →
    (RCState.run s ops).count = 0 := by
  induction ops with
  | nil =>
    intro c s hc hbal
    simp only [balancedFrom] at hbal
    simp [RCState.run, hc, hbal]
  | cons op rest ih =>
    intro c s hc hbal
    cases op with
    | retain =>
      simp only [balancedFrom] at hbal
      have hstep : (RCState.step s .retain).count = ((c + 1 : Nat) : Int) := by
        rw [rc_step_retain_count, hc]
        push_cast
        ring
      exact ih (c + 1) _ hstep hbal
    | release =>
      simp only [balancedFrom] at hbal
      obtain ⟨h1, _, hbal'⟩ := hbal
      have hstep : (RCState.step s .release).count = ((c - 1 : Nat) : Int) := by
        rw [rc_step_release_count, hc]
        omega
      exact ih (c - 1) _ hstep hbal'

theorem rc_prefix_inv (ops : List RefOp) : ∀ (c : Nat) (s : RCState),
    0 < c → s.count = (c : Int) → s.hookRuns = 0 → balancedFrom c ops →
    ∀ p q, ops = p ++ q →
      0 ≤ (RCState.run s p).count ∧
      (RCState.run s p).hookRuns =
        (if (RCState.run s p).count = 0 then 1 else 0) := by
  induction ops with
  | nil =>
    intro c s hcpos hc hh hbal p q hpq
    have hp : p = [] := by
      cases p with
      | nil => rfl
      | cons a b => simp at hpq
    subst hp
    simp only [RCState.run, List.foldl_nil]
    have hne : s.count ≠ 0 := by
      rw [hc]
      exact_mod_cast Nat.pos_iff_ne_zero.mp hcpos
    refine ⟨by rw [hc]; positivity, ?_⟩
    rw [hh, if_neg hne]
  | cons op rest ih =>
    intro c s hcpos hc hh hbal p q hpq
    cases p with
    | nil =>
      simp only [RCState.run, List.foldl_nil]
      have hne : s.count ≠ 0 := by
        rw [hc]
        exact_mod_cast Nat.pos_iff_ne_zero.mp hcpos
      refine ⟨by rw [hc]; positivity, ?_⟩
      rw [hh, if_neg hne]
    | cons ph pt =>
      have hph1 : ph = op := (List.cons_eq_cons.mp hpq).1.symm
      have hph2 : rest = pt ++ q := (List.cons_eq_cons.mp hpq).2
      subst hph1
      have hrun : RCState.run s (ph :: pt) = RCState.run (RCState.step s ph) pt := rfl
      rw [hrun]
      cases ph with
      | retain =>
        simp only [balancedFrom] at hbal
        refine ih (c + 1) (RCState.step s .retain) (by omega) ?_ ?_ hbal pt q hph2
        · rw [rc_step_retain_count, hc]
          push_cast
          ring
        · rw [rc_step_retain_hook, hh]
      | release =>
        simp only [balancedFrom] at hbal
        obtain ⟨h1, hend, hbal'⟩ := hbal
        by_cases hc1 : c = 1
        · have hrest : rest = [] := hend hc1
          have hpt : pt = [] := by
            rw [hrest] at hph2
            cases pt with
            | nil => rfl
            | cons a b => simp at hph2
          rw [hpt]
          simp only [RCState.run, List.foldl_nil]
          have hcnt : (RCState.step s .release).count = 0 := by
            rw [rc_step_release_count, hc, hc1]
            norm_num
          have hzero : s.count - 1 = 0 := by
            rw [hc, hc1]
            norm_num
          refine ⟨by rw [hcnt], ?_⟩
          rw [rc_step_release_hook, hh, if_pos hzero]
          simp only [hcnt]
          norm_num
        · refine ih (c - 1) (RCState.step s .release) (by omega) ?_ ?_ hbal' pt q hph2
          · rw [rc_step_release_count, hc]
            omega
          · have hne : s.count - 1 ≠ 0 := by
              rw [hc]
              have : 2 ≤ c := by omega
              omega
            rw [rc_step_release_hook, hh, if_neg hne]

/-! ## Shape of the writer output -/

theorem writeMessage_snd_nil (s : WriterState) (msg : Message)
    (hd : msg.data = []) : (Writer.writeMessage s msg).2 = [] := by
  simp [Writer.writeMessage, hd]

theorem writeMessage_snd (s : WriterState) (msg : Message)
    (hd : msg.data ≠ []) :
    (Writer.writeMessage s msg).2 =
      { fmtType := determineFormatType
          ((s.prevHeaders (getChunkStreamID msg.header.messageTypeID)).getD zeroHeader)
          msg.header,
        csid := getChunkStreamID msg.header.messageTypeID,
        headerBytes := (msg.header.writeToParts (determineFormatType
          ((s.prevHeaders (getChunkStreamID msg.header.messageTypeID)).getD zeroHeader)
          msg.header)).1,
        extBytes := (msg.header.writeToParts (determineFormatType
          ((s.prevHeaders (getChunkStreamID msg.header.messageTypeID)).getD zeroHeader)
          msg.header)).2,
        payload := msg.data.take s.chunkSize } ::
      contChunks (getChunkStreamID msg.header.messageTypeID) s.chunkSize
        (msg.data.drop s.chunkSize) := by
  simp [Writer.writeMessage, hd]

theorem writeMessageP15_snd_nil (s : WriterState) (msg : Message)
    (hd : msg.data = []) : (Writer.writeMessageP15 s msg).2 = [] := by
  simp [Writer.writeMessageP15, hd]

theorem writeMessageP15_snd (s : WriterState) (msg : Message)
    (hd : msg.data ≠ []) :
    (Writer.writeMessageP15 s msg).2 =
      { fmtType := (p15EffectiveHeader s msg).1,
        csid := getChunkStreamID msg.header.messageTypeID,
        headerBytes := ((p15EffectiveHeader s msg).2.writeToParts
          (p15EffectiveHeader s msg).1).1,
        extBytes := ((p15EffectiveHeader s msg).2.writeToParts
          (p15EffectiveHeader s msg).1).2,
        payload := msg.data.take s.chunkSize } ::
      contChunksP15 (getChunkStreamID msg.header.messageTypeID) s.chunkSize
        (p15EffectiveHeader s msg).2.hasExtendedTimestamp
        (p15EffectiveHeader s msg).2.timestampDelta
        (msg.data.drop s.chunkSize) := by
  simp [Writer.writeMessageP15, hd]

theorem claimFmtChoice_some_eq (p h : MessageHeader) :
    claimFmtChoice (some p) h = determineFormatType p h := rfl

/-! ## Claim theorems -/

/-- C1 (corrected): `Transport.WriteMessage` performs no message-type
check.  A protocol-control message — SetChunkSize (1), Acknowledgement
(3), WindowAckSize (5) or SetPeerBandwidth (6) — handed to the generic
write path is chunked and written to the wire exactly like any other
message; the function has no error path, so it never rejects the
message, and when the message carries data the wire bytes are
non-empty.  The specified InvalidConfiguration rejection does not
exist in the code. -/
theorem c1_control_message_not_rejected (t : TransportState) (msg : Message)
    (hctrl : msg.header.messageTypeID = 1 ∨ msg.header.messageTypeID = 3 ∨
      msg.header.messageTypeID = 5 ∨ msg.header.messageTypeID = 6)
    (hd : msg.data ≠ []) :
    (Transport.writeMessage t msg).wireOut =
      t.wireOut ++ wireOf (Writer.writeMessage t.writer msg).2 ∧
    wireOf (Writer.writeMessage t.writer msg).2 ≠ [] := by
  refine ⟨rfl, ?_⟩
  apply List.ne_nil_of_length_pos
  rw [writeMessage_snd t.writer msg hd, wireOf_cons]
  have h64 := (getChunkStreamID_range msg.header.messageTypeID).2
  simp only [Chunk.flatten, basicHeaderBytes_small _ _ h64,
    List.length_append, List.length_cons]
  omega

/-- Witness for C1: a SetChunkSize message with payload `[0,0,0,100]`
passes through `Transport.WriteMessage` from the fresh transport. -/
theorem c1_control_message_not_rejected_witness :
    ((cexSetChunkSizeMsg.header.messageTypeID = 1 ∨
      cexSetChunkSizeMsg.header.messageTypeID = 3 ∨
      cexSetChunkSizeMsg.header.messageTypeID = 5 ∨
      cexSetChunkSizeMsg.header.messageTypeID = 6) ∧
     cexSetChunkSizeMsg.data ≠ []) ∧
    ((Transport.writeMessage TransportState.fresh cexSetChunkSizeMsg).wireOut =
      TransportState.fresh.wireOut ++
        wireOf (Writer.writeMessage TransportState.fresh.writer cexSetChunkSizeMsg).2 ∧
     wireOf (Writer.writeMessage TransportState.fresh.writer cexSetChunkSizeMsg).2 ≠ []) :=
  ⟨⟨by decide, by decide⟩,
   c1_control_message_not_rejected TransportState.fresh cexSetChunkSizeMsg
     (by decide) (by decide)⟩

/-- Counterexample to C1 as specified: writing a SetChunkSize message
through the generic path emits 12 wire bytes (fmt-1 header on CSID 2
followed by the 4-byte payload) instead of failing with no bytes
written. -/
theorem c1_counterexample :
    (Transport.writeMessage TransportState.fresh cexSetChunkSizeMsg).wireOut =
      [66, 0, 0, 0, 0, 0, 4, 1, 0, 0, 0, 100] := by rfl

/-- C2 (corrected): the write-then-read round trip preserves
`message_type_id`, `message_stream_id`, `timestamp` and the payload
bytes for every message with a non-empty payload whose length fits in
24 bits, **provided** the message stream ID is non-zero (and the
message is not a malformed protocol-control message).  A fresh writer
compares against the zero header, so an MSID-0 message gets a fmt-1
header whose absolute timestamp is never transmitted — the round trip
then loses the timestamp (see the counterexample). -/
theorem c2_write_read_round_trip (cs : Nat) (hcs : 1 ≤ cs) (msg : Message)
    (hts : msg.header.timestamp < 4294967296)
    (htid : msg.header.messageTypeID < 256)
    (hmsid : msg.header.messageStreamID < 4294967296)
    (hmsid0 : msg.header.messageStreamID ≠ 0)
    (hlen : msg.header.messageLength = msg.payload.length)
    (hlen24 : msg.payload.length < 16777216)
    (hpay : msg.payload ≠ [])
    (hvalid : validCtrlLen msg.header.messageTypeID msg.payload.length = true) :
    (Reader.readMessage (ReaderState.fresh cs)
        (wireOf (Writer.writeMessage (WriterState.fresh cs) msg).2)).map
      (fun out => (out.1.header.messageTypeID, out.1.header.messageStreamID,
        out.1.header.timestamp, out.1.payload, out.2.2)) =
      .ok (msg.header.messageTypeID, msg.header.messageStreamID,
        msg.header.timestamp, msg.payload, ([] : List Nat)) := by
  have hdata : msg.data = msg.payload := by
    simp [Message.data, hlen]
  have hd : msg.data ≠ [] := by rw [hdata]; exact hpay
  rw [writer_fresh_fmt0 cs msg hmsid0 hd, hdata]
  have h2 := (getChunkStreamID_range msg.header.messageTypeID).1
  have h64 := (getChunkStreamID_range msg.header.messageTypeID).2
  have hread := readMessage_fmt0 (getChunkStreamID msg.header.messageTypeID)
    cs h2 h64 hcs msg.header msg.payload hts htid hmsid hlen hpay hlen24 hvalid
    (ReaderState.fresh cs) [] (by simp [csFreshLike, ReaderState.fresh]) rfl
  rw [List.append_nil] at hread
  rw [hread]
  simp [Except.map, recovered0]

set_option maxRecDepth 8192 in
/-- Witness for C2: the extended-timestamp scenario — timestamp
`0xFFFFFF + 1000`, 178-byte payload, chunk size 128, MSID 1 — round
trips exactly. -/
theorem c2_write_read_round_trip_witness :
    (1 ≤ 128 ∧ cexRoundMsg.header.timestamp < 4294967296 ∧
     cexRoundMsg.header.messageTypeID < 256 ∧
     cexRoundMsg.header.messageStreamID < 4294967296 ∧
     cexRoundMsg.header.messageStreamID ≠ 0 ∧
     cexRoundMsg.header.messageLength = cexRoundMsg.payload.length ∧
     cexRoundMsg.payload.length < 16777216 ∧
     cexRoundMsg.payload ≠ [] ∧
     validCtrlLen cexRoundMsg.header.messageTypeID cexRoundMsg.payload.length = true) ∧
    (Reader.readMessage (ReaderState.fresh 128)
        (wireOf (Writer.writeMessage (WriterState.fresh 128) cexRoundMsg).2)).map
      (fun out => (out.1.header.messageTypeID, out.1.header.messageStreamID,
        out.1.header.timestamp, out.1.payload, out.2.2)) =
      .ok (cexRoundMsg.header.messageTypeID, cexRoundMsg.header.messageStreamID,
        cexRoundMsg.header.timestamp, cexRoundMsg.payload, ([] : List Nat)) :=
  ⟨⟨by decide, by decide, by decide, by decide, by decide, by decide, by decide,
    by decide, by decide⟩,
   c2_write_read_round_trip 128 (by decide) cexRoundMsg (by decide) (by decide)
     (by decide) (by decide) (by decide) (by decide) (by decide) (by decide)⟩

/-- Counterexample to C2 as stated for all u24-length messages: an
audio message with `MessageStreamID = 0` and timestamp 5 written by a
fresh writer gets a fmt-1 header (the fresh chunk stream's previous
header is the zero header, whose MSID already matches), so only the
zero timestamp delta is transmitted; the reader recovers timestamp 0,
not 5. -/
theorem c2_counterexample :
    (Reader.readMessage (ReaderState.fresh 128)
        (wireOf (Writer.writeMessage (WriterState.fresh 128) cexMsidZeroMsg).2)).map
      (fun out => out.1.header.timestamp) = .ok 0 ∧
    cexMsidZeroMsg.header.timestamp = 5 := ⟨by rfl, by rfl⟩

/-- C3 (corrected): every continuation chunk of the `prevHeaders`-map
writer uses fmt 3 on the same CSID, and carries the 4-byte big-endian
extended timestamp (of the effective header's timestamp delta) exactly
when the effective message header has its extended-timestamp flag set —
which the writer sets whenever the absolute timestamp **or** the delta
reaches `0xFFFFFF`.  This is not the same condition as "the first chunk
carried an extended timestamp": a fmt-2 message with a small delta but
a large absolute timestamp writes no extended timestamp on its first
chunk, yet every continuation carries one (see the counterexample). -/
theorem c3_continuation_chunks (s : WriterState) (msg : Message) (c : Chunk)
    (hc : c ∈ (Writer.writeMessageP15 s msg).2.drop 1) :
    c.fmtType = 3 ∧ c.csid = getChunkStreamID msg.header.messageTypeID ∧
    c.extBytes = (if (p15EffectiveHeader s msg).2.hasExtendedTimestamp then
      writeUint32BE (p15EffectiveHeader s msg).2.timestampDelta else []) := by
  by_cases hd : msg.data = []
  · rw [writeMessageP15_snd_nil s msg hd] at hc
    simp at hc
  · rw [writeMessageP15_snd s msg hd] at hc
    have hdrop : ∀ (a : Chunk) (l : List Chunk), (a :: l).drop 1 = l :=
      fun a l => rfl
    rw [hdrop] at hc
    unfold contChunksP15 at hc
    exact contChunksP15Aux_mem _ _ _ _ _ _ c hc

set_option maxRecDepth 8192 in
/-- Witness for C3: the second continuation chunk of the second
extended-timestamp scenario message (fmt 2, delta 5, absolute timestamp
`0x1000005`) is fmt 3 on CSID 4 and carries the extended timestamp. -/
theorem c3_continuation_chunks_witness :
    (({ fmtType := 3, csid := 4, headerBytes := [], extBytes := [0, 0, 0, 5],
        payload := List.replicate 72 2 } : Chunk) ∈
      (Writer.writeMessageP15 cexExtState cexExtM2).2.drop 1) ∧
    (({ fmtType := 3, csid := 4, headerBytes := [], extBytes := [0, 0, 0, 5],
        payload := List.replicate 72 2 } : Chunk).fmtType = 3 ∧
     ({ fmtType := 3, csid := 4, headerBytes := [], extBytes := [0, 0, 0, 5],
        payload := List.replicate 72 2 } : Chunk).csid =
       getChunkStreamID cexExtM2.header.messageTypeID ∧
     ({ fmtType := 3, csid := 4, headerBytes := [], extBytes := [0, 0, 0, 5],
        payload := List.replicate 72 2 } : Chunk).extBytes =
       (if (p15EffectiveHeader cexExtState cexExtM2).2.hasExtendedTimestamp then
         writeUint32BE (p15EffectiveHeader cexExtState cexExtM2).2.timestampDelta
        else [])) :=
  ⟨by decide, c3_continuation_chunks cexExtState cexExtM2 _ (by decide)⟩

set_option maxRecDepth 8192 in
/-- Counterexample to C3's "iff the first chunk did": for the second
scenario message the emitted chunk sequence has an empty
extended-timestamp field on the first chunk and `[0,0,0,5]` on its
continuation. -/
theorem c3_counterexample :
    ((Writer.writeMessageP15 cexExtState cexExtM2).2.map Chunk.extBytes) =
      [[], [0, 0, 0, 5]] := by rfl

/-- C4 (confirmed): the format type the `prevHeaders`-map writer puts
on a message's first chunk is exactly the claimed selection — fmt 0
when no header was previously sent on the chunk stream, otherwise
fmt 0 on an MSID change, fmt 1 on a length or type change, fmt 2 on a
timestamp change, and fmt 3 when nothing changed. -/
theorem c4_format_selection (s : WriterState) (msg : Message) :
    (p15EffectiveHeader s msg).1 =
      claimFmtChoice (s.prevHeaders (getChunkStreamID msg.header.messageTypeID))
        msg.header := by
  cases hp : s.prevHeaders (getChunkStreamID msg.header.messageTypeID) with
  | none =>
    simp only [p15EffectiveHeader, hp, claimFmtChoice]
    split_ifs <;> rfl
  | some p =>
    rw [claimFmtChoice_some_eq]
    simp only [p15EffectiveHeader, hp]
    split_ifs <;> rfl

/-- C5 (corrected): with window size `W` (and `lastAckSent` as the
baseline the transport re-arms on each WindowAckSize message), a pass
through `handleAckWindow` emits exactly
`(bytesRead - lastAckSent) / W` Acknowledgements, the i-th carrying
`u32 (lastAckSent + W * (i+1))` — the cumulative count at that window
boundary.  This equals the specified `floor(N/W) - floor(baseline/W)`
only when the baseline is a multiple of `W`; the counterexample run
emits one Acknowledgement where the specified formula predicts two. -/
theorem c5_ack_window_emission (t : TransportState) :
    (Transport.handleAckWindow t).acksOut =
      t.acksOut ++ (List.range ((t.bytesRead - t.lastAckSent) / t.windowAckSize)).map
        (fun i => u32 (t.lastAckSent + t.windowAckSize * (i + 1))) ∧
    (Transport.handleAckWindow t).lastAckSent =
      t.lastAckSent + t.windowAckSize * ((t.bytesRead - t.lastAckSent) / t.windowAckSize) ∧
    (Transport.handleAckWindow t).bytesRead = t.bytesRead := by
  have h := ackLoopAux_spec (t.bytesRead - t.lastAckSent + 1) t
    (Nat.le_trans (Nat.div_le_self _ _) (Nat.le_succ _))
  exact ⟨h.1, h.2.1, h.2.2.1⟩

/-- Counterexample to C5's count formula: a WindowAckSize(10) message
(16 wire bytes, re-baselining `lastAckSent` to 16) followed by three
5-byte WindowAckSize messages gives `bytesRead = 31` and a single
Acknowledgement carrying 26, while `floor(31/10) - floor(16/10) = 2`. -/
theorem c5_counterexample :
    ((Transport.run cexAckStream.length TransportState.fresh cexAckStream).map
      (fun out => (out.1.acksOut, out.1.bytesRead, out.1.windowAckSize,
        out.1.lastAckSent))) = .ok ([26], 31, 10, 26) ∧
    cexAckStream.length / 10 - 16 / 10 = 2 := ⟨by rfl, by rfl⟩

/-- C6 (corrected): an inbound protocol-control message whose payload
has the wrong length is not fatal and is not returned: once the message
completes, `Reader.getReadyMessage` silently discards it — the buffers
and byte count are cleared, no message is handed out, no error is
raised, and the chunk stream's `PrevHeader` is left unchanged — and
reading continues with the next message (see the end-to-end
counterexample). -/
theorem c6_malformed_control_discarded (r : ReaderState) (csid : Nat)
    (e : ChunkStreamState) (he : r.chunkStreams csid = some e)
    (hcomp : e.messageHeader.messageLength ≤ e.bytesRead)
    (hval : validCtrlLen e.messageHeader.messageTypeID
      (e.buffers.take e.messageHeader.messageLength).length = false) :
    Reader.getReadyMessage r csid =
      (none,
       { r with chunkStreams := fun c =>
           if c = csid then some { e with buffers := [], bytesRead := 0 }
           else r.chunkStreams c }) :=
  getReadyMessage_complete_invalid r csid e he hcomp hval

/-- Witness for C6: a completed SetChunkSize with a 3-byte payload on
chunk stream 2 is dropped without error or `PrevHeader` update. -/
theorem c6_malformed_control_discarded_witness :
    (cexBadReader.chunkStreams 2 = some cexBadEntry ∧
     cexBadEntry.messageHeader.messageLength ≤ cexBadEntry.bytesRead ∧
     validCtrlLen cexBadEntry.messageHeader.messageTypeID
       (cexBadEntry.buffers.take cexBadEntry.messageHeader.messageLength).length
       = false) ∧
    Reader.getReadyMessage cexBadReader 2 =
      (none,
       { cexBadReader with chunkStreams := fun c =>
           if c = 2 then some { cexBadEntry with buffers := [], bytesRead := 0 }
           else cexBadReader.chunkStreams c }) :=
  ⟨⟨by rfl, by decide, by decide⟩,
   c6_malformed_control_discarded cexBadReader 2 cexBadEntry (by rfl)
     (by decide) (by decide)⟩

/-- Counterexample to C6 as specified: a malformed SetChunkSize
(3-byte payload) followed by a well-formed audio message makes
`Transport.ReadMessage` return the audio message with no error — the
malformed control message is silently discarded, not fatal. -/
theorem c6_counterexample :
    (Transport.readMessage TransportState.fresh cexMalformedStream).map
      (fun out => (out.1.header.messageTypeID, out.1.payload, out.2.2)) =
      .ok (8, [9], ([] : List Nat)) := by rfl

/-- C7 (code bug): the declared fatal `ErrNoPreviousHeader` is
unreachable from `Reader.readChunk`, which always passes the (possibly
zero-valued) `PrevHeader` of a freshly created chunk stream to the
header parsers.  A fmt-1 chunk arriving first on chunk stream 3 is
therefore read successfully: the reader synthesizes a message from the
zero header (timestamp `0 + 5`, MSID 0) instead of failing. -/
theorem c7_fmt1_without_predecessor_not_fatal :
    (Reader.readMessage (ReaderState.fresh 128) cexFmt1Stream).map
      (fun out => (out.1.header.timestamp, out.1.header.messageTypeID,
        out.1.header.messageStreamID, out.1.payload)) =
      .ok (5, 8, 0, [171]) := by rfl

/-- C8 (confirmed): for any balanced sequence of `Retain`/`Share`/
`Release` operations on a buffer created with count 1, every prefix
leaves the reference count non-negative, the release hook has run
exactly when the count is zero (so never before the final release), and
at the end the count is zero and the hook has run exactly once. -/
theorem c8_refcount_safety (ops : List MsgOp)
    (hbal : balancedFrom 1 (ops.map MsgOp.toRefOp)) :
    (∀ p q, ops.map MsgOp.toRefOp = p ++ q →
       0 ≤ (RCState.run RCState.init p).count ∧
       (RCState.run RCState.init p).hookRuns =
         (if (RCState.run RCState.init p).count = 0 then 1 else 0)) ∧
    (RCState.run RCState.init (ops.map MsgOp.toRefOp)).count = 0 ∧
    (RCState.run RCState.init (ops.map MsgOp.toRefOp)).hookRuns = 1 := by
  have hcount := rc_run_count (ops.map MsgOp.toRefOp) 1 RCState.init
    (by simp [RCState.init]) hbal
  refine ⟨fun p q hpq => rc_prefix_inv (ops.map MsgOp.toRefOp) 1 RCState.init
    (by omega) (by simp [RCState.init]) rfl hbal p q hpq, hcount, ?_⟩
  have h := rc_prefix_inv (ops.map MsgOp.toRefOp) 1 RCState.init (by omega)
    (by simp [RCState.init]) rfl hbal (ops.map MsgOp.toRefOp) []
    (by rw [List.append_nil])
  rw [h.2, if_pos hcount]

/-- Witness for C8: the sequence Share, Release, Release is balanced
from count 1 and satisfies the invariant. -/
theorem c8_refcount_safety_witness :
    balancedFrom 1 ([MsgOp.share, MsgOp.release, MsgOp.release].map MsgOp.toRefOp) ∧
    ((∀ p q, [MsgOp.share, MsgOp.release, MsgOp.release].map MsgOp.toRefOp = p ++ q →
       0 ≤ (RCState.run RCState.init p).count ∧
       (RCState.run RCState.init p).hookRuns =
         (if (RCState.run RCState.init p).count = 0 then 1 else 0)) ∧
     (RCState.run RCState.init
       ([MsgOp.share, MsgOp.release, MsgOp.release].map MsgOp.toRefOp)).count = 0 ∧
     (RCState.run RCState.init
       ([MsgOp.share, MsgOp.release, MsgOp.release].map MsgOp.toRefOp)).hookRuns = 1) :=
  ⟨by simp [MsgOp.toRefOp, balancedFrom],
   c8_refcount_safety [MsgOp.share, MsgOp.release, MsgOp.release]
     (by simp [MsgOp.toRefOp, balancedFrom])⟩

/-- C9 (confirmed): the CSID of every chunk `Writer.WriteMessage` emits
is `getChunkStreamID` of the message's type — the caller cannot choose
it — and that function is exactly the claimed mapping: control types
1–6 on CSID 2, AMF commands (17, 20) on 3, audio (8) on 4, video (9)
on 5, AMF data (15, 18) on 6, everything else on 3. -/
theorem c9_csid_function_of_type (s : WriterState) (msg : Message) (c : Chunk)
    (hc : c ∈ (Writer.writeMessage s msg).2) :
    c.csid = getChunkStreamID msg.header.messageTypeID ∧
    getChunkStreamID msg.header.messageTypeID =
      claimCsidOfType msg.header.messageTypeID := by
  refine ⟨?_, getChunkStreamID_eq_claim _⟩
  by_cases hd : msg.data = []
  · rw [writeMessage_snd_nil s msg hd] at hc
    simp at hc
  · rw [writeMessage_snd s msg hd] at hc
    rcases List.mem_cons.mp hc with hc | hc
    · rw [hc]
    · unfold contChunks at hc
      exact (contChunksAux_mem _ _ _ _ c hc).2.1

/-- Witness for C9: the single chunk of the MSID-0 audio message sits
on CSID 4. -/
theorem c9_csid_function_of_type_witness :
    (({ fmtType := 1, csid := 4, headerBytes := [0, 0, 0, 0, 0, 2, 8],
        extBytes := [], payload := [170, 187] } : Chunk) ∈
      (Writer.writeMessage (WriterState.fresh 128) cexMsidZeroMsg).2) ∧
    (({ fmtType := 1, csid := 4, headerBytes := [0, 0, 0, 0, 0, 2, 8],
        extBytes := [], payload := [170, 187] } : Chunk).csid =
       getChunkStreamID cexMsidZeroMsg.header.messageTypeID ∧
     getChunkStreamID cexMsidZeroMsg.header.messageTypeID =
       claimCsidOfType cexMsidZeroMsg.header.messageTypeID) :=
  ⟨by decide,
   c9_csid_function_of_type (WriterState.fresh 128) cexMsidZeroMsg _ (by decide)⟩

/-- C10 (confirmed): a message with `MessageLength = 0` makes
`Writer.WriteMessage` emit no chunks and hence no wire bytes, return
normally, and still overwrite the cached previous header of the
message's chunk stream with the message's header; the chunk size is
untouched. -/
theorem c10_empty_message_frame_effect (s : WriterState) (msg : Message)
    (hlen0 : msg.header.messageLength = 0) :
    (Writer.writeMessage s msg).2 = [] ∧
    wireOf (Writer.writeMessage s msg).2 = [] ∧
    (Writer.writeMessage s msg).1.prevHeaders
      (getChunkStreamID msg.header.messageTypeID) = some msg.header ∧
    (Writer.writeMessage s msg).1.chunkSize = s.chunkSize := by
  have hd : msg.data = [] := by simp [Message.data, hlen0]
  have h2 := writeMessage_snd_nil s msg hd
  refine ⟨h2, by rw [h2]; rfl, ?_, rfl⟩
  simp [Writer.writeMessage]

/-- Witness for C10: the empty audio message. -/
theorem c10_empty_message_frame_effect_witness :
    cexEmptyMsg.header.messageLength = 0 ∧
    ((Writer.writeMessage (WriterState.fresh 128) cexEmptyMsg).2 = [] ∧
     wireOf (Writer.writeMessage (WriterState.fresh 128) cexEmptyMsg).2 = [] ∧
     (Writer.writeMessage (WriterState.fresh 128) cexEmptyMsg).1.prevHeaders
       (getChunkStreamID cexEmptyMsg.header.messageTypeID) = some cexEmptyMsg.header ∧
     (Writer.writeMessage (WriterState.fresh 128) cexEmptyMsg).1.chunkSize =
       (WriterState.fresh 128).chunkSize) :=
  ⟨by decide,
   c10_empty_message_frame_effect (WriterState.fresh 128) cexEmptyMsg (by decide)⟩

end ERtmp
